import Mathlib

set_option maxRecDepth 100000
set_option maxHeartbeats 12000000

/-!
Verification of the scalable-rag-system repository core against its
specification.  The Python sources are shallowly embedded: pure functions
become Lean functions over `String`, `Int`, `Nat`, `ℚ` and lists; the
mutable service objects (dedup registry, rate limiter, redis cache) become
explicit state records threaded through the operations.  External
libraries the code calls with fixed, well-known semantics (`hashlib`
SHA-256 and MD5) are implemented bit-for-bit so that every claim can be
settled by evaluation on concrete inputs.
-/

namespace RagSys

/-! ## Byte-level hash primitives (hashlib.sha256 / hashlib.md5) -/

/-- Truncate to a 32-bit word, as all Python hash arithmetic is mod 2^32. -/
def w32 (x : Nat) : Nat := x % 4294967296

/-- 32-bit rotate right. -/
def rotr32 (n x : Nat) : Nat := w32 ((x >>> n) ||| (x <<< (32 - n)))

/-- 32-bit rotate left. -/
def rotl32 (n x : Nat) : Nat := w32 ((x <<< n) ||| (x >>> (32 - n)))

/-- 32-bit complement. -/
def not32 (x : Nat) : Nat := 4294967295 - w32 x

/-- UTF-8 encoding of one character (`str.encode('utf-8')` per char). -/
def utf8Char (c : Char) : List Nat :=
  let n := c.toNat
  if n < 128 then [n]
  else if n < 2048 then [192 + n / 64, 128 + n % 64]
  else if n < 65536 then [224 + n / 4096, 128 + (n / 64) % 64, 128 + n % 64]
  else [240 + n / 262144, 128 + (n / 4096) % 64, 128 + (n / 64) % 64, 128 + n % 64]

/-- UTF-8 bytes of a string (`s.encode('utf-8')`). -/
def strBytes (s : String) : List Nat := (s.data.map utf8Char).flatten

/-- Split a byte list into 64-byte blocks (structural recursion on a fuel
bound so that the definition reduces by evaluation). -/
def chunks64Aux (fuel : Nat) (l : List Nat) : List (List Nat) :=
  match fuel, l with
  | _, [] => []
  | 0, _ => []
  | f + 1, l => l.take 64 :: chunks64Aux f (l.drop 64)

/-- Split a byte list into 64-byte blocks. -/
def chunks64 (l : List Nat) : List (List Nat) := chunks64Aux l.length l

/-- Big-endian byte rendering of a number on `k` bytes. -/
def beBytes (k n : Nat) : List Nat :=
  (List.range k).map (fun i => (n >>> ((k - 1 - i) * 8)) % 256)

/-- Little-endian byte rendering of a number on `k` bytes. -/
def leBytes (k n : Nat) : List Nat :=
  (List.range k).map (fun i => (n >>> (i * 8)) % 256)

/-- Pack bytes into big-endian 32-bit words. -/
def beWords : List Nat → List Nat
  | a :: b :: c :: d :: rest => (a * 16777216 + b * 65536 + c * 256 + d) :: beWords rest
  | _ => []

/-- Pack bytes into little-endian 32-bit words. -/
def leWords : List Nat → List Nat
  | a :: b :: c :: d :: rest => (d * 16777216 + c * 65536 + b * 256 + a) :: leWords rest
  | _ => []

/-- Merkle–Damgård padding: 0x80, zeros to 56 mod 64, then the bit length. -/
def mdPad (lenBytes : List Nat) (msg : List Nat) : List Nat :=
  let len := msg.length
  let k := (119 - len % 64) % 64
  msg ++ [128] ++ List.replicate k 0 ++ lenBytes

/-- SHA-256 round constants. -/
def sha256K : List Nat :=
  [1116352408, 1899447441, 3049323471, 3921009573, 961987163, 1508970993,
   2453635748, 2870763221, 3624381080, 310598401, 607225278, 1426881987,
   1925078388, 2162078206, 2614888103, 3248222580, 3835390401, 4022224774,
   264347078, 604807628, 770255983, 1249150122, 1555081692, 1996064986,
   2554220882, 2821834349, 2952996808, 3210313671, 3336571891, 3584528711,
   113926993, 338241895, 666307205, 773529912, 1294757372, 1396182291,
   1695183700, 1986661051, 2177026350, 2456956037, 2730485921, 2820302411,
   3259730800, 3345764771, 3516065817, 3600352804, 4094571909, 275423344,
   430227734, 506948616, 659060556, 883997877, 958139571, 1322822218,
   1537002063, 1747873779, 1955562222, 2024104815, 2227730452, 2361852424,
   2428436474, 2756734187, 3204031479, 3329325298]

/-- SHA-256 initial hash state. -/
def sha256H0 : List Nat :=
  [1779033703, 3144134277, 1013904242, 2773480762,
   1359893119, 2600822924, 528734635, 1541459225]

/-- SHA-256 message schedule: 16 block words extended to 64. -/
def sha256Schedule (ws : List Nat) : List Nat :=
  (List.range 64).foldl
    (fun acc i =>
      if i < 16 then acc ++ [ws.getD i 0]
      else
        let w15 := acc.getD (i - 15) 0
        let w2 := acc.getD (i - 2) 0
        let s0 := (rotr32 7 w15) ^^^ (rotr32 18 w15) ^^^ (w15 >>> 3)
        let s1 := (rotr32 17 w2) ^^^ (rotr32 19 w2) ^^^ (w2 >>> 10)
        acc ++ [w32 (acc.getD (i - 16) 0 + s0 + acc.getD (i - 7) 0 + s1)])
    []

/-- One SHA-256 compression round over the state `[a,b,c,d,e,f,g,h]`. -/
def sha256Round (w : List Nat) (st : List Nat) (i : Nat) : List Nat :=
  match st with
  | [a, b, c, d, e, f, g, h] =>
    let s1 := (rotr32 6 e) ^^^ (rotr32 11 e) ^^^ (rotr32 25 e)
    let ch := (e &&& f) ^^^ ((not32 e) &&& g)
    let temp1 := w32 (h + s1 + ch + sha256K.getD i 0 + w.getD i 0)
    let s0 := (rotr32 2 a) ^^^ (rotr32 13 a) ^^^ (rotr32 22 a)
    let maj := (a &&& b) ^^^ (a &&& c) ^^^ (b &&& c)
    let temp2 := w32 (s0 + maj)
    [w32 (temp1 + temp2), a, b, c, w32 (d + temp1), e, f, g]
  | other => other

/-- SHA-256 compression of one 64-byte block into the running state. -/
def sha256Compress (h : List Nat) (block : List Nat) : List Nat :=
  let w := sha256Schedule (beWords block)
  let f := (List.range 64).foldl (sha256Round w) h
  List.zipWith (fun x y => w32 (x + y)) h f

/-- One lowercase hex digit. -/
def hexDigit (n : Nat) : Char :=
  if n < 10 then Char.ofNat (48 + n) else Char.ofNat (87 + n)

/-- Two-digit hex rendering of one byte. -/
def byteHex (b : Nat) : List Char := [hexDigit (b / 16), hexDigit (b % 16)]

/-- Big-endian hex rendering of a 32-bit word. -/
def wordHexBE (w : Nat) : List Char := (beBytes 4 w).map byteHex |>.flatten

/-- `hashlib.sha256(s.encode('utf-8')).hexdigest()`. -/
def sha256Hex (s : String) : String :=
  let padded := mdPad (beBytes 8 ((strBytes s).length * 8)) (strBytes s)
  let hs := (chunks64 padded).foldl sha256Compress sha256H0
  ⟨(hs.map wordHexBE).flatten⟩

/-- MD5 round constants (floor(abs(sin(i+1))·2^32)). -/
def md5K : List Nat :=
  [3614090360, 3905402710, 606105819, 3250441966, 4118548399, 1200080426,
   2821735955, 4249261313, 1770035416, 2336552879, 4294925233, 2304563134,
   1804603682, 4254626195, 2792965006, 1236535329, 4129170786, 3225465664,
   643717713, 3921069994, 3593408605, 38016083, 3634488961, 3889429448,
   568446438, 3275163606, 4107603335, 1163531501, 2850285829, 4243563512,
   1735328473, 2368359562, 4294588738, 2272392833, 1839030562, 4259657740,
   2763975236, 1272893353, 4139469664, 3200236656, 681279174, 3936430074,
   3572445317, 76029189, 3654602809, 3873151461, 530742520, 3299628645,
   4096336452, 1126891415, 2878612391, 4237533241, 1700485571, 2399980690,
   4293915773, 2240044497, 1873313359, 4264355552, 2734768916, 1309151649,
   4149444226, 3174756917, 718787259, 3951481745]

/-- MD5 per-round left-rotation amounts. -/
def md5S : List Nat :=
  [7, 12, 17, 22, 7, 12, 17, 22, 7, 12, 17, 22, 7, 12, 17, 22,
   5, 9, 14, 20, 5, 9, 14, 20, 5, 9, 14, 20, 5, 9, 14, 20,
   4, 11, 16, 23, 4, 11, 16, 23, 4, 11, 16, 23, 4, 11, 16, 23,
   6, 10, 15, 21, 6, 10, 15, 21, 6, 10, 15, 21, 6, 10, 15, 21]

/-- One MD5 round over the state `[a,b,c,d]` with block words `m`. -/
def md5Round (m : List Nat) (st : List Nat) (i : Nat) : List Nat :=
  match st with
  | [a, b, c, d] =>
    let fg : Nat × Nat :=
      if i < 16 then ((b &&& c) ||| ((not32 b) &&& d), i)
      else if i < 32 then ((d &&& b) ||| ((not32 d) &&& c), (5 * i + 1) % 16)
      else if i < 48 then (b ^^^ c ^^^ d, (3 * i + 5) % 16)
      else (c ^^^ (b ||| (not32 d)), (7 * i) % 16)
    let f := w32 (fg.1 + a + md5K.getD i 0 + m.getD fg.2 0)
    [d, w32 (b + rotl32 (md5S.getD i 0) f), b, c]
  | other => other

/-- MD5 compression of one 64-byte block into the running state. -/
def md5Compress (h : List Nat) (block : List Nat) : List Nat :=
  let m := leWords block
  let f := (List.range 64).foldl (md5Round m) h
  List.zipWith (fun x y => w32 (x + y)) h f

/-- MD5 initial state. -/
def md5H0 : List Nat := [1732584193, 4023233417, 2562383102, 271733878]

/-- `hashlib.md5(s.encode('utf-8')).hexdigest()`. -/
def md5Hex (s : String) : String :=
  let padded := mdPad (leBytes 8 ((strBytes s).length * 8)) (strBytes s)
  let hs := (chunks64 padded).foldl md5Compress md5H0
  ⟨(hs.map (fun w => ((leBytes 4 w).map byteHex).flatten)).flatten⟩

/-! ## Python value, string and dict model

Python metadata values occurring in the embedded code are strings, ints,
bools and `None`; dictionaries are insertion-ordered with unique keys.
All embedded text is ASCII, for which `Char.toLower`, `Char.isAlphanum`
and `Char.isWhitespace` agree with Python's `str.lower`, `\w` and `\s`.
-/

/-- A Python metadata value. -/
inductive PyVal where
  | str (s : String)
  | int (n : Int)
  | bool (b : Bool)
  | none
deriving DecidableEq, Repr

/-- A single-quote character, built numerically. -/
def sq : String := ⟨[Char.ofNat 39]⟩

/-- Python `repr` of a metadata value (as used by `str` on tuples/lists). -/
def PyVal.pyRepr : PyVal → String
  | .str s => sq ++ s ++ sq
  | .int n => toString n
  | .bool b => if b then "True" else "False"
  | .none => "None"

/-- Python `str` of a metadata value (as used by f-strings). -/
def PyVal.pyStr : PyVal → String
  | .str s => s
  | .int n => toString n
  | .bool b => if b then "True" else "False"
  | .none => "None"

/-- Helper for `str.split()`: accumulate the current word (reversed). -/
def splitWsAux : List Char → List Char → List String
  | [], cur => if cur.isEmpty then [] else [(⟨cur.reverse⟩ : String)]
  | c :: rest, cur =>
    if c.isWhitespace then
      (if cur.isEmpty then ([] : List String) else [(⟨cur.reverse⟩ : String)]) ++ splitWsAux rest []
    else splitWsAux rest (c :: cur)

/-- Python `str.split()` with no argument: split on whitespace runs. -/
def pySplit (s : String) : List String := splitWsAux s.data []

/-- Python `sep.join(parts)`. -/
def joinSep (sep : String) : List String → String
  | [] => ""
  | [x] => x
  | x :: xs => x ++ sep ++ joinSep sep xs

/-- Python `str.lower()` (ASCII). -/
def lowerStr (s : String) : String := ⟨s.data.map Char.toLower⟩

/-- Python `str.strip()`: drop leading and trailing whitespace. -/
def pyStrip (s : String) : String :=
  ⟨((s.data.dropWhile (·.isWhitespace)).reverse.dropWhile (·.isWhitespace)).reverse⟩

/-- A regex `\w` word character (ASCII). -/
def isWordChar (c : Char) : Bool := c.isAlphanum || c = '_'

/-- Whether `needle` is an initial segment of `hay`. -/
def isPre : List Char → List Char → Bool
  | [], _ => true
  | _ :: _, [] => false
  | a :: ns, b :: hs => a = b && isPre ns hs

/-- Python `needle in hay` substring containment. -/
def containsSubList (needle : List Char) : List Char → Bool
  | [] => needle.isEmpty
  | c :: rest => isPre needle (c :: rest) || containsSubList needle rest

/-- Python `needle in hay` on strings. -/
def containsSub (hay needle : String) : Bool := containsSubList needle.data hay.data

/-- One candidate position of a `\b…\b` regex search: the previous character
(if any) and the next character after the match (if any) must not be word
characters. -/
def boundMatchAt (needle : List Char) (pre : Option Char) (rest : List Char) : Bool :=
  (match pre with | Option.none => true | some c => !isWordChar c)
  && isPre needle rest
  && (match rest.drop needle.length with
      | [] => true
      | c :: _ => !isWordChar c)

/-- Scan all positions for a word-bounded occurrence. -/
def boundSearchAux (needle : List Char) (pre : Option Char) : List Char → Bool
  | [] => boundMatchAt needle pre []
  | c :: rest => boundMatchAt needle pre (c :: rest) || boundSearchAux needle (some c) rest

/-- `re.search(r'\b(alt)\b', q)` for one alternative `alt` whose first and
last characters are word characters (true of every planner keyword). -/
def reWordSearch (q phrase : String) : Bool := boundSearchAux phrase.data Option.none q.data

/-- Python dict as an insertion-ordered association list with unique keys. -/
abbrev PyDict := List (String × PyVal)

/-- Python `d[k] = v`: replace in place if present, else append. -/
def dictSet (d : PyDict) (k : String) (v : PyVal) : PyDict :=
  if d.any (·.1 = k) then d.map (fun p => if p.1 = k then (k, v) else p)
  else d ++ [(k, v)]

/-- Python `d.get(k, dflt)`. -/
def dictGetD (d : PyDict) (k : String) (dflt : PyVal) : PyVal :=
  match d.find? (·.1 = k) with
  | some p => p.2
  | Option.none => dflt

/-- Python string `<`: lexicographic comparison of code points. -/
def listLtB : List Char → List Char → Bool
  | [], [] => false
  | [], _ :: _ => true
  | _ :: _, [] => false
  | a :: as, b :: bs =>
    if a.toNat < b.toNat then true
    else if a.toNat = b.toNat then listLtB as bs
    else false

/-- Python string `<` on strings. -/
def strLtB (a b : String) : Bool := listLtB a.data b.data

/-- Stable ascending insertion by key (Python tuple comparison touches only
the key since dict keys are unique). -/
def insertByKey (x : String × PyVal) : List (String × PyVal) → List (String × PyVal)
  | [] => [x]
  | y :: ys => if strLtB x.1 y.1 || x.1 == y.1 then x :: y :: ys else y :: insertByKey x ys

/-- Python `sorted(d.items())`. -/
def sortItems (d : PyDict) : PyDict := d.foldr insertByKey []

/-- Python `str(sorted(d.items()))`. -/
def pyItemsStr (d : PyDict) : String :=
  "[" ++ joinSep ", "
    ((sortItems d).map (fun p => "(" ++ PyVal.pyRepr (.str p.1) ++ ", " ++ p.2.pyRepr ++ ")"))
  ++ "]"

/-- A langchain `Document`: page content plus metadata dict. -/
structure PyDoc where
  page_content : String
  metadata : PyDict
deriving DecidableEq, Repr

/-! ## src/app/core/query_planner.py -/

namespace QueryPlanner

/-- The factual regex family, one entry per pattern, each a list of
`\b`-bounded alternatives. -/
def factual_patterns : List (List String) :=
  [["what", "who", "when", "where", "which", "how many", "how much"],
   ["define", "definition", "meaning", "explain"],
   ["compare", "difference", "similar", "versus", "vs"]]

/-- The procedural regex family. -/
def procedural_patterns : List (List String) :=
  [["how to", "how do", "steps", "process", "procedure", "method"],
   ["implement", "create", "build", "develop", "setup", "configure"],
   ["tutorial", "guide", "walkthrough", "example"]]

/-- The conceptual regex family. -/
def conceptual_patterns : List (List String) :=
  [["why", "reason", "cause", "purpose", "benefit", "advantage"],
   ["concept", "theory", "principle", "idea", "notion"],
   ["understand", "comprehend", "learn", "study"]]

/-- The search regex family. -/
def search_patterns : List (List String) :=
  [["find", "search", "look for", "locate", "discover"],
   ["list", "show", "display", "present"],
   ["available", "options", "choices", "alternatives"]]

/-- `_score_patterns`: one point per pattern that matches anywhere. -/
def score_patterns (query : String) (patterns : List (List String)) : Nat :=
  patterns.foldl (fun score alts => if alts.any (reWordSearch query) then score + 1 else score) 0

/-- `_classify_query_type`: the first key attaining the maximal score in the
dict order factual, procedural, conceptual, search; `factual` when all
scores are zero. -/
def classify_query_type (query : String) : String :=
  let sf := score_patterns query factual_patterns
  let sp := score_patterns query procedural_patterns
  let sc := score_patterns query conceptual_patterns
  let ss := score_patterns query search_patterns
  let m := max (max sf sp) (max sc ss)
  if m = 0 then "factual"
  else if sf = m then "factual"
  else if sp = m then "procedural"
  else if sc = m then "conceptual"
  else "search"

/-- The base `(bm25, vector)` weight table, with the `.get` default. -/
def base_weights (query_type : String) : ℚ × ℚ :=
  if query_type = "factual" then (2/5, 3/5)
  else if query_type = "procedural" then (3/5, 2/5)
  else if query_type = "conceptual" then (3/10, 7/10)
  else if query_type = "search" then (7/10, 3/10)
  else (1/2, 1/2)

/-- The query-length adjustment of `_calculate_weights`. -/
def length_adjusted (bw : ℚ × ℚ) (query_length : Nat) : ℚ × ℚ :=
  if query_length > 10 then (bw.1 - 1/10, bw.2 + 1/10)
  else if query_length < 5 then (bw.1 + 1/10, bw.2 - 1/10)
  else bw

/-- The technical-term list of `_calculate_weights`. -/
def technical_terms : List String :=
  ["api", "function", "method", "class", "variable", "code", "syntax"]

/-- The technical-term adjustment of `_calculate_weights` (substring test). -/
def tech_adjusted (bw : ℚ × ℚ) (query : String) : ℚ × ℚ :=
  if technical_terms.any (containsSub query) then (bw.1 + 1/10, bw.2 - 1/10) else bw

/-- `_calculate_weights`: base table, two adjustments, then normalization
to sum 1.  Returns `(bm25_weight, vector_weight)`. -/
def calculate_weights (query_type query : String) : ℚ × ℚ :=
  let bw := tech_adjusted (length_adjusted (base_weights query_type) (pySplit query).length) query
  (bw.1 / (bw.1 + bw.2), bw.2 / (bw.1 + bw.2))

/-- `_should_use_reranking`. -/
def should_use_reranking (query_type query : String) : Bool :=
  if (pySplit query).length > 8 then true
  else if query_type = "conceptual" || query_type = "factual" then true
  else
    let inds := ["and", "or", "but", "however", "although", "while"]
    decide ((inds.foldl (fun n t => if containsSub query t then n + 1 else n) 0) > 1)

/-- `_should_use_expansion`. -/
def should_use_expansion (query_type query : String) : Bool :=
  if (pySplit query).length < 4 then true
  else if query_type = "conceptual" then true
  else
    let specific := ["specific", "exact", "precise", "detailed", "particular"]
    !(specific.any (containsSub query))

/-- `_calculate_confidence`, clamped to `[0, 1]`. -/
def calculate_confidence (query_type query : String) : ℚ :=
  let c : ℚ := 7/10
  let ql := (pySplit query).length
  let c := if ql > 5 then c + 1/10 else c
  let c := if ql > 10 then c + 1/10 else c
  let c := if query_type = "factual" || query_type = "procedural" then c + 1/10 else c
  let ambiguous := ["maybe", "perhaps", "might", "could", "possibly"]
  let c := if ambiguous.any (containsSub query) then c - 1/5 else c
  min 1 (max 0 c)

/-- The record returned by `analyze_query`. -/
structure Analysis where
  query_type : String
  bm25_weight : ℚ
  vector_weight : ℚ
  use_reranking : Bool
  use_expansion : Bool
  confidence : ℚ
deriving DecidableEq, Repr

/-- `analyze_query`: lowercase once, then classify and derive all fields. -/
def analyze_query (query : String) : Analysis :=
  let query_lower := lowerStr query
  let qt := classify_query_type query_lower
  let w := calculate_weights qt query_lower
  { query_type := qt
  , bm25_weight := w.1
  , vector_weight := w.2
  , use_reranking := should_use_reranking qt query_lower
  , use_expansion := should_use_expansion qt query_lower
  , confidence := calculate_confidence qt query_lower }

/-- `_get_optimal_top_k`. -/
def get_optimal_top_k (query_type : String) : Nat :=
  if query_type = "factual" then 8
  else if query_type = "procedural" then 12
  else if query_type = "conceptual" then 10
  else if query_type = "search" then 15
  else 10

/-- `_get_optimal_rerank_k`. -/
def get_optimal_rerank_k (query_type : String) : Nat :=
  if query_type = "factual" then 5
  else if query_type = "procedural" then 8
  else if query_type = "conceptual" then 6
  else if query_type = "search" then 10
  else 6

/-- The record returned by `get_optimal_params`. -/
structure OptimalParams where
  bm25_weight : ℚ
  vector_weight : ℚ
  use_reranking : Bool
  use_expansion : Bool
  top_k : Nat
  rerank_top_k : Nat
  confidence : ℚ
deriving DecidableEq, Repr

/-- `get_optimal_params`. -/
def get_optimal_params (query : String) : OptimalParams :=
  let a := analyze_query query
  { bm25_weight := a.bm25_weight
  , vector_weight := a.vector_weight
  , use_reranking := a.use_reranking
  , use_expansion := a.use_expansion
  , top_k := get_optimal_top_k a.query_type
  , rerank_top_k := get_optimal_rerank_k a.query_type
  , confidence := a.confidence }

end QueryPlanner

/-! ## src/app/core/deduplication.py -/

namespace DeduplicationService

/-- `normalize_text`: collapse whitespace, lowercase, strip non-word
non-space characters, strip ends. -/
def normalize_text (text : String) : String :=
  let t := joinSep " " (pySplit text)
  let t := lowerStr t
  let t := (⟨t.data.filter (fun c => isWordChar c || c.isWhitespace)⟩ : String)
  pyStrip t

/-- `compute_content_hash`: SHA-256 over normalized text, a separator and
`str(sorted(metadata.items()))` — every metadata pair is included. -/
def compute_content_hash (document : PyDoc) : String :=
  sha256Hex (normalize_text document.page_content ++ "|||" ++ pyItemsStr document.metadata)

/-- The registry state of a `DeduplicationService` instance. -/
structure DedupState where
  processed_hashes : List String
  hash_to_doc_id : List (String × String)
deriving DecidableEq, Repr

/-- A fresh service. -/
def DedupState.empty : DedupState := ⟨[], []⟩

/-- `is_duplicate`. -/
def is_duplicate (st : DedupState) (document : PyDoc) : Bool × Option String :=
  let h := compute_content_hash document
  if st.processed_hashes.contains h then
    (true, (st.hash_to_doc_id.find? (·.1 = h)).map (·.2))
  else (false, Option.none)

/-- `add_document`. -/
def add_document (st : DedupState) (document : PyDoc) (doc_id : String) :
    DedupState × Bool :=
  let h := compute_content_hash document
  if st.processed_hashes.contains h then (st, false)
  else (⟨st.processed_hashes ++ [h], st.hash_to_doc_id ++ [(h, doc_id)]⟩, true)

/-- `deduplicate_documents`: split into unique and duplicate lists; the
registry is only read, never written, during the split. -/
def deduplicate_documents (st : DedupState) (documents : List PyDoc) :
    List PyDoc × List PyDoc :=
  documents.foldl
    (fun acc doc =>
      if (is_duplicate st doc).1 then (acc.1, acc.2 ++ [doc])
      else (acc.1 ++ [doc], acc.2))
    ([], [])

end DeduplicationService

/-! ## src/app/core/vector_store.py (the data written by `_add_to_chroma`) -/

/-- One `collection.add` call recorded by the vector-store adapter. -/
structure VSWrite where
  collection : String
  ids : List String
  docs : List PyDoc
  embeddings : List (List ℚ)
deriving DecidableEq, Repr

/-- The id string `_add_to_chroma` builds for a document
(`f"{source}_{chunk_index}"` with defaults `'unknown'` and `0`). -/
def chroma_doc_id (doc : PyDoc) : String :=
  (dictGetD doc.metadata "source" (.str "unknown")).pyStr ++ "_"
    ++ (dictGetD doc.metadata "chunk_index" (.int 0)).pyStr

/-! ## src/app/core/deduplication.py — `UpsertService` -/

namespace UpsertService

open DeduplicationService

/-- The counters returned by `upsert_documents`. -/
structure UpsertResult where
  total_documents : Nat
  unique_documents : Nat
  duplicate_documents : Nat
  upserted_documents : Nat
deriving DecidableEq, Repr

/-- The id built in the upsert loop: `f"{source}_{chunk_index}"` where the
`chunk_index` default is the loop index. -/
def upsert_doc_id (doc : PyDoc) (i : Nat) : String :=
  (dictGetD doc.metadata "source" (.str "unknown")).pyStr ++ "_"
    ++ (dictGetD doc.metadata "chunk_index" (.int i)).pyStr

/-- Python `documents.index(doc)`: first structural match. -/
def pyIndexOf (documents : List PyDoc) (doc : PyDoc) : Nat :=
  (documents.findIdx? (· = doc)).getD documents.length

/-- `upsert_documents`: deduplicate, register ids, gather the embeddings by
`documents.index`, and append one vector-store write (which succeeds). -/
def upsert_documents (st : DedupState) (writes : List VSWrite)
    (collection_name : String) (documents : List PyDoc)
    (embeddings : List (List ℚ)) :
    UpsertResult × DedupState × List VSWrite :=
  let ud := deduplicate_documents st documents
  let unique_docs := ud.1
  let duplicate_docs := ud.2
  if unique_docs.isEmpty then
    (⟨documents.length, unique_docs.length, duplicate_docs.length, 0⟩, st, writes)
  else
    let doc_ids := unique_docs.enum.map (fun p => upsert_doc_id p.2 p.1)
    let st := unique_docs.enum.foldl
      (fun s p => (add_document s p.2 (upsert_doc_id p.2 p.1)).1) st
    let unique_embeddings := unique_docs.map
      (fun d => embeddings.getD (pyIndexOf documents d) [])
    let writes := writes ++ [⟨collection_name, doc_ids, unique_docs, unique_embeddings⟩]
    (⟨documents.length, unique_docs.length, duplicate_docs.length, unique_docs.length⟩,
     st, writes)

end UpsertService

/-! ## src/app/core/index_management.py -/

namespace IndexManager

open DeduplicationService UpsertService

/-- One input item of `idempotent_upsert` (the dict fields it reads). -/
structure InDoc where
  content : String
  metadata : PyDict
  source : String
  chunk_index : Int
  file_name : String
  file_type : String
  doc_title : String
  section_title : String
  page_num : Int
deriving DecidableEq, Repr

/-- The mutable state owned by an `IndexManager`: the dedup registry, the
vector-store writes issued so far, and the cache invalidations issued. -/
structure IMState where
  dedup : DedupState
  writes : List VSWrite
  invalidated : List String
deriving DecidableEq, Repr

/-- A fresh manager. -/
def IMState.empty : IMState := ⟨DedupState.empty, [], []⟩

/-- The `Document` object built at the top of the upsert loop: the incoming
metadata plus the fixed keys, ending with the volatile
`created_at = datetime.utcnow().isoformat()` (passed here as `now`). -/
def build_doc_obj (doc : InDoc) (now : String) : PyDoc :=
  { page_content := doc.content
  , metadata :=
      let d := doc.metadata
      let d := dictSet d "source" (.str doc.source)
      let d := dictSet d "chunk_index" (.int doc.chunk_index)
      let d := dictSet d "file_name" (.str doc.file_name)
      let d := dictSet d "file_type" (.str doc.file_type)
      let d := dictSet d "doc_title" (.str doc.doc_title)
      let d := dictSet d "section_title" (.str doc.section_title)
      let d := dictSet d "page_num" (.int doc.page_num)
      dictSet d "created_at" (.str now) }

/-- `IndexManager._compute_content_hash`: the raw (un-normalized) content
plus `str(sorted(metadata.items()))`. -/
def im_compute_content_hash (document : PyDoc) : String :=
  sha256Hex (document.page_content ++ "|||" ++ pyItemsStr document.metadata)

/-- The result record of `idempotent_upsert`. -/
structure IdemResult where
  success : Bool
  total_documents : Nat
  processed_documents : Nat
  skipped_documents : Nat
  upserted_documents : Nat
deriving DecidableEq, Repr

/-- `idempotent_upsert`: build each `Document` with a fresh `created_at`,
skip those the registry flags as duplicates, stamp a `content_hash`
metadata field on the rest, then hand them to `upsert_documents`; the
collection's cache tag is invalidated when anything was upserted. -/
def idempotent_upsert (s : IMState) (collection_name : String)
    (documents : List InDoc) (embeddings : List (List ℚ)) (now : String) :
    IdemResult × IMState :=
  let pairs := documents.zip embeddings
  let acc := pairs.foldl
    (fun (acc : List (PyDoc × List ℚ) × Nat) p =>
      let doc_obj := build_doc_obj p.1 now
      if (is_duplicate s.dedup doc_obj).1 then (acc.1, acc.2 + 1)
      else
        let h := im_compute_content_hash doc_obj
        (acc.1 ++ [({ doc_obj with
            metadata := dictSet doc_obj.metadata "content_hash" (.str h) }, p.2)],
         acc.2))
    ([], 0)
  let processed := acc.1
  let skipped := acc.2
  if processed.isEmpty then
    (⟨true, documents.length, 0, skipped, 0⟩, s)
  else
    let r := upsert_documents s.dedup s.writes collection_name
      (processed.map (·.1)) (processed.map (·.2))
    let invalidated :=
      if r.1.upserted_documents > 0 then s.invalidated ++ [collection_name]
      else s.invalidated
    (⟨true, documents.length, processed.length, skipped, r.1.upserted_documents⟩,
     ⟨r.2.1, r.2.2, invalidated⟩)

end IndexManager

/-! ## src/app/ingestion/chunking.py — `SectionAwareChunker` -/

namespace SectionAwareChunker

/-- One section dict as produced by `_split_into_sections`. -/
structure PySection where
  title : String
  content : String
  level : Int
  page_num : Int
  section_num : Int
deriving DecidableEq, Repr

/-- `_chunk_section`: strip the section body, split it with the markdown or
plain-text splitter according to `file_type`, and build one `Document` per
piece with `chunk_index` equal to the position inside the section.  The two
langchain splitters are external collaborators and are passed as
functions. -/
def chunk_section (md_split txt_split : String → List String)
    (sec : PySection) (doc_metadata : PyDict) : List PyDoc :=
  let content := pyStrip sec.content
  if content = "" then []
  else
    let chunks :=
      if dictGetD doc_metadata "file_type" PyVal.none = PyVal.str ".md"
        ∨ dictGetD doc_metadata "file_type" PyVal.none = PyVal.str ".markdown"
      then md_split content else txt_split content
    chunks.enum.map (fun p =>
      { page_content := p.2
      , metadata :=
          let d := doc_metadata
          let d := dictSet d "section_title" (.str sec.title)
          let d := dictSet d "section_level" (.int sec.level)
          let d := dictSet d "section_num" (.int sec.section_num)
          let d := dictSet d "page_num" (.int sec.page_num)
          let d := dictSet d "chunk_index" (.int p.1)
          let d := dictSet d "chunk_size" (.int p.2.length)
          let d := dictSet d "is_section_start" (.bool (p.1 = 0))
          dictSet d "is_section_end" (.bool (p.1 = chunks.length - 1)) })

/-- `SectionAwareChunker._normalize_text` (same body as the dedup one). -/
def chunker_normalize_text (text : String) : String :=
  let t := joinSep " " (pySplit text)
  let t := lowerStr t
  let t := (⟨t.data.filter (fun c => isWordChar c || c.isWhitespace)⟩ : String)
  pyStrip t

/-- `SectionAwareChunker._compute_content_hash`: normalized content plus
`str(sorted(metadata.items()))` — again every metadata pair is included. -/
def chunker_compute_content_hash (document : PyDoc) : String :=
  sha256Hex (chunker_normalize_text document.page_content ++ "|||"
    ++ pyItemsStr document.metadata)

end SectionAwareChunker

/-! ## A stable descending sort, the semantics of Python's
`list.sort(key=…, reverse=True)` (any two stable sorts by the same key
produce identical output). -/

/-- Insert `x`, which precedes every element of the list in the original
order, before the first element whose key does not exceed `x`'s. -/
def insertDescBy {α : Type} (key : α → ℚ) (x : α) : List α → List α
  | [] => [x]
  | y :: ys => if key y ≤ key x then x :: y :: ys else y :: insertDescBy key x ys

/-- Stable sort by `key`, largest first. -/
def sortDescBy {α : Type} (key : α → ℚ) : List α → List α
  | [] => []
  | x :: xs => insertDescBy key x (sortDescBy key xs)

/-! ## src/app/core/hybrid_search.py — `HybridSearchEngine.hybrid_search` -/

namespace HybridSearchEngine

/-- The min of a nonempty Python list (`min(scores)`). -/
def pyMin (x : ℚ) (xs : List ℚ) : ℚ := xs.foldl min x

/-- The max of a nonempty Python list (`max(scores)`). -/
def pyMax (x : ℚ) (xs : List ℚ) : ℚ := xs.foldl max x

/-- The min–max normalization applied by `hybrid_search` to each score
list: empty stays empty, degenerate ranges use a denominator of 1. -/
def normalizeScores : List ℚ → List ℚ
  | [] => []
  | x :: xs =>
    let mx := pyMax x xs
    let mn := pyMin x xs
    let rng := if mx ≠ mn then mx - mn else 1
    (x :: xs).map (fun s => (s - mn) / rng)

/-- One value of the `doc_scores` dict. -/
structure DocScore (α : Type) where
  doc : α
  vector_score : ℚ
  bm25_score : ℚ
deriving DecidableEq, Repr

/-- `doc_scores[doc_id] = {'doc': doc, 'vector_score': v, 'bm25_score': 0}`:
replace in place when the key exists (keeping dict order), else append. -/
def dsSetVector {α : Type} (d : List (String × DocScore α)) (k : String)
    (e : DocScore α) : List (String × DocScore α) :=
  if d.any (·.1 = k) then d.map (fun p => if p.1 = k then (k, e) else p)
  else d ++ [(k, e)]

/-- The bm25 loop body: update `bm25_score` of an existing entry, else
insert a fresh entry whose `vector_score` is 0. -/
def dsSetBm {α : Type} (d : List (String × DocScore α)) (k : String)
    (doc : α) (b : ℚ) : List (String × DocScore α) :=
  if d.any (·.1 = k) then
    d.map (fun p => if p.1 = k then (k, { p.2 with bm25_score := b }) else p)
  else d ++ [(k, ⟨doc, 0, b⟩)]

/-- `hybrid_search` after the external BM25 call: on an empty BM25 result
fall back to the truncated dense results; otherwise normalize both score
lists, fuse per doc id with the configured weights, sort by fused score
descending and truncate.  `doc_id` abstracts `_get_doc_id`; the enumerate
guards `i < len(normalized)` always hold because normalization preserves
length, so the loops walk the zips. -/
def hybrid_search {α : Type} (doc_id : α → String)
    (vector_results : List (α × ℚ)) (bm25_results : List (α × ℚ))
    (top_k : Nat) (semantic_weight keyword_weight : ℚ) : List (α × ℚ) :=
  if bm25_results.isEmpty then vector_results.take top_k
  else
    let normalized_vector := normalizeScores (vector_results.map (·.2))
    let normalized_bm25 := normalizeScores (bm25_results.map (·.2))
    let d1 := (vector_results.zip normalized_vector).foldl
      (fun d p => dsSetVector d (doc_id p.1.1) ⟨p.1.1, p.2, 0⟩) []
    let d2 := (bm25_results.zip normalized_bm25).foldl
      (fun d p => dsSetBm d (doc_id p.1.1) p.1.1 p.2) d1
    let hybrid_results := d2.map (fun p =>
      (p.2.doc, semantic_weight * p.2.vector_score + keyword_weight * p.2.bm25_score))
    (sortDescBy (fun x => x.2) hybrid_results).take top_k

/-- The last score recorded for a key in a keyed score list, 0 when the key
never occurs (later occurrences overwrite earlier ones, like the dict). -/
def lastScore (pairs : List (String × ℚ)) (key : String) : ℚ :=
  pairs.foldl (fun acc p => if p.1 = key then p.2 else acc) 0

/-- The normalized score one side of the fusion contributes for a given
doc id: the last normalized score of that id in the side's result list,
or 0 when the id is absent. -/
def sideNorm {α : Type} (doc_id : α → String) (results : List (α × ℚ))
    (key : String) : ℚ :=
  lastScore ((results.map (fun r => doc_id r.1)).zip
    (normalizeScores (results.map (·.2)))) key

/-- `_get_doc_id` for langchain documents and for ES hit dicts alike:
`f"{source}_{chunk_index}"` with defaults. -/
def get_doc_id (doc : PyDoc) : String :=
  (dictGetD doc.metadata "source" (.str "")).pyStr ++ "_"
    ++ (dictGetD doc.metadata "chunk_index" (.int 0)).pyStr

end HybridSearchEngine

/-! ## src/app/core/reranking_service.py — `RerankingService._apply_scores` -/

namespace RerankingService

/-- `_apply_scores`: on a length mismatch return the input truncated;
otherwise combine each original (fused) score with its rerank score as
`0.6·rerank + 0.4·original`, sort by the combined score descending
(Python's stable sort) and truncate to `top_k` when given. -/
def apply_scores {α : Type} (documents : List (α × ℚ)) (rerank_scores : List ℚ)
    (top_k : Option Nat) : List (α × ℚ) :=
  if rerank_scores.length ≠ documents.length then
    match top_k with
    | some k => documents.take k
    | Option.none => documents
  else
    let combined_results := (documents.zip rerank_scores).map
      (fun p => (p.1.1, 3/5 * p.2 + 2/5 * p.1.2))
    let sorted := sortDescBy (fun x => x.2) combined_results
    match top_k with
    | some k => sorted.take k
    | Option.none => sorted

/-- A minimal document carrying the fields `_get_doc_id` reads. -/
structure SDoc where
  source : String
  chunk_index : Int
deriving DecidableEq, Repr

/-- The chunk id of such a document, `f"{source}_{chunk_index}"`. -/
def SDoc.docId (d : SDoc) : String := d.source ++ "_" ++ toString d.chunk_index

end RerankingService

/-! ## src/app/core/rate_limiting.py -/

namespace RateLimiting

/-- `RateLimitConfig`; quota-derived configs keep the default
`window_size = 60` because the constructor call does not set it. -/
structure RateLimitConfig where
  requests_per_minute : Nat := 100
  requests_per_hour : Nat := 1000
  concurrent_requests : Nat := 10
  burst_limit : Nat := 20
  window_size : ℚ := 60
deriving DecidableEq, Repr

/-- `APIKeyQuota` (the `created_at`/`last_used` bookkeeping fields are not
read by any admission decision and are omitted). -/
structure APIKeyQuota where
  api_key : String
  requests_per_minute : Nat
  requests_per_hour : Nat
  concurrent_requests : Nat
  burst_limit : Nat
  scopes : List String
  is_active : Bool := true
deriving DecidableEq, Repr

/-- The mutable state of a `RateLimiter`.  The defaultdicts
`request_tracking` and `queue_depths` are only ever read and written per
key and are modelled extensionally as total functions with defaults `[]`
and `0` (a defaultdict read materializes a default entry, which no
observable value distinguishes from its absence); `api_key_quotas` and
`concurrent_requests` are enumerated by the backpressure sums and stay
association lists. -/
structure RLState where
  default_config : RateLimitConfig
  api_key_quotas : List (String × APIKeyQuota)
  request_tracking : String → List ℚ
  concurrent_requests : List (String × Nat)
  queue_depths : String → Nat
  cleanup_interval : ℚ := 300
  last_cleanup : ℚ

/-- `self.concurrent_requests[api_key]` as a read (default 0). -/
def RLState.conc (s : RLState) (k : String) : Nat :=
  ((s.concurrent_requests.find? (·.1 = k)).map (·.2)).getD 0

/-- Write a value into an association list, appending when absent. -/
def updateNat (l : List (String × Nat)) (k : String) (v : Nat) :
    List (String × Nat) :=
  if l.any (·.1 = k) then l.map (fun p => if p.1 = k then (k, v) else p)
  else l ++ [(k, v)]

/-- The quota looked up for a key. -/
def quota_of (s : RLState) (k : String) : Option APIKeyQuota :=
  (s.api_key_quotas.find? (·.1 = k)).map (·.2)

/-- The decision record: `allowed`, the `reason` string and the
`retry_after` seconds hint (absent on allowed results and scope denials). -/
structure RLResult where
  allowed : Bool
  reason : String
  retry_after : Option ℚ
deriving DecidableEq, Repr

/-- `_cleanup_old_data`: at most every `cleanup_interval` seconds, drop
request timestamps older than one hour (dropping a dict entry that became
empty is extensionally the identity in the defaultdict model). -/
def cleanup_old_data (s : RLState) (current_time : ℚ) : RLState :=
  if current_time - s.last_cleanup < s.cleanup_interval then s
  else
    { s with
        last_cleanup := current_time
      , request_tracking := (fun k =>
          (s.request_tracking k).dropWhile (· < current_time - 3600)) }

/-- `_check_rate_limits`: pop timestamps older than the tracking window in
place, then test the minute and hour counts. -/
def check_rate_limits (s : RLState) (api_key : String)
    (config : RateLimitConfig) (current_time : ℚ) : RLResult × RLState :=
  let requests := (s.request_tracking api_key).dropWhile
    (· < current_time - config.window_size)
  let s := { s with
    request_tracking := (fun k =>
      if k = api_key then requests else s.request_tracking k) }
  let minute_requests := requests.filter (fun r => r > current_time - 60)
  if minute_requests.length ≥ config.requests_per_minute then
    ({ allowed := false, reason := "Rate limit exceeded (per minute)"
     , retry_after := some (60 - (current_time - minute_requests.headD 0)) }, s)
  else
    let hour_requests := requests.filter (fun r => r > current_time - 3600)
    if hour_requests.length ≥ config.requests_per_hour then
      ({ allowed := false, reason := "Rate limit exceeded (per hour)"
       , retry_after := some (3600 - (current_time - hour_requests.headD 0)) }, s)
    else ({ allowed := true, reason := "", retry_after := Option.none }, s)

/-- `_check_burst_limit`: count the last ten seconds on the (already
window-popped) deque. -/
def check_burst_limit (s : RLState) (api_key : String)
    (config : RateLimitConfig) (current_time : ℚ) : RLResult :=
  let burst_requests := (s.request_tracking api_key).filter
    (fun r => r > current_time - 10)
  if burst_requests.length ≥ config.burst_limit then
    { allowed := false, reason := "Burst limit exceeded"
    , retry_after := some (10 - (current_time - burst_requests.headD 0)) }
  else { allowed := true, reason := "", retry_after := Option.none }

/-- The tail of `check_rate_limit` once the config is fixed: concurrency,
then minute/hour, then burst, else allowed. -/
def check_with_config (s : RLState) (api_key : String)
    (config : RateLimitConfig) (current_time : ℚ) : RLResult × RLState :=
  if s.conc api_key ≥ config.concurrent_requests then
    ({ allowed := false, reason := "Too many concurrent requests"
     , retry_after := some 1 }, s)
  else
    let rc := check_rate_limits s api_key config current_time
    if ¬ rc.1.allowed then rc
    else
      let burst := check_burst_limit rc.2 api_key config current_time
      if ¬ burst.allowed then (burst, rc.2)
      else ({ allowed := true, reason := "OK", retry_after := Option.none }, rc.2)

/-- `check_rate_limit`: cleanup, quota lookup, scope check for active
quotas, then the remaining checks with the selected config. -/
def check_rate_limit (s : RLState) (api_key : String) (request_type : String)
    (current_time : ℚ) : RLResult × RLState :=
  let s := cleanup_old_data s current_time
  match quota_of s api_key with
  | some quota =>
    if quota.is_active then
      if ¬ quota.scopes.contains request_type then
        ({ allowed := false, reason := "Insufficient scope"
         , retry_after := Option.none }, s)
      else
        check_with_config s api_key
          ⟨quota.requests_per_minute, quota.requests_per_hour,
           quota.concurrent_requests, quota.burst_limit, 60⟩ current_time
    else check_with_config s api_key s.default_config current_time
  | Option.none => check_with_config s api_key s.default_config current_time

/-- `record_request`: append the timestamp, bump the in-flight counter. -/
def record_request (s : RLState) (api_key : String) (current_time : ℚ) :
    RLState :=
  { s with
      request_tracking := (fun k =>
        if k = api_key then s.request_tracking api_key ++ [current_time]
        else s.request_tracking k)
    , concurrent_requests := updateNat s.concurrent_requests api_key (s.conc api_key + 1) }

/-- `release_request`: decrement the in-flight counter when positive. -/
def release_request (s : RLState) (api_key : String) : RLState :=
  if s.conc api_key > 0 then
    { s with
        concurrent_requests := updateNat s.concurrent_requests api_key (s.conc api_key - 1) }
  else s

/-- `sum(self.concurrent_requests.values())`. -/
def total_concurrent (s : RLState) : Nat :=
  (s.concurrent_requests.map (·.2)).sum

/-- `BackpressureController.should_accept_request` with its fields
`max_queue_depth` and `overload_threshold` passed explicitly (defaults 100
and 0.8): rate limits first, then queue depth, then the global overload
test guarded by a positive capacity. -/
def should_accept_request (s : RLState) (max_queue_depth : Nat)
    (overload_threshold : ℚ) (api_key : String) (current_time : ℚ) :
    RLResult × RLState :=
  let rc := check_rate_limit s api_key "query" current_time
  if ¬ rc.1.allowed then rc
  else
    let s := rc.2
    let queue_depth := s.queue_depths api_key
    if queue_depth ≥ max_queue_depth then
      ({ allowed := false, reason := "Queue depth limit exceeded"
       , retry_after := some 5 }, s)
    else
      let total_capacity : Nat :=
        (s.api_key_quotas.map (fun p => p.2.concurrent_requests)).sum
      if total_capacity > 0 then
        if (total_concurrent s : ℚ) / (total_capacity : ℚ) ≥ overload_threshold then
          ({ allowed := false, reason := "System overload"
           , retry_after := some 10 }, s)
        else ({ allowed := true, reason := "OK", retry_after := Option.none }, s)
      else ({ allowed := true, reason := "OK", retry_after := Option.none }, s)

end RateLimiting

/-! ## src/app/core/cache.py — `CacheService` -/

namespace CacheService

/-- `_generate_cache_key`: MD5 over the colon-joined prefix and args. -/
def generate_cache_key (pre : String) (args : List String) : String :=
  md5Hex (pre ++ ":" ++ joinSep ":" args)

/-- The redis keyspace, keys to stored payloads. -/
abbrev Store := List (String × String)

/-- Redis `SETEX` (the TTL plays no role in the invalidation claim). -/
def setex (st : Store) (key value : String) : Store :=
  if st.any (·.1 = key) then st.map (fun p => if p.1 = key then (key, value) else p)
  else st ++ [(key, value)]

/-- `set_vector_hits`: key `md5("vector:" + query + ":" + collection)`. -/
def set_vector_hits (st : Store) (query collection value : String) : Store :=
  setex st (generate_cache_key "vector" [query, collection]) value

/-- `set_rerank_score`: key `md5("rerank:" + query + ":" + doc_id)`. -/
def set_rerank_score (st : Store) (query doc_id value : String) : Store :=
  setex st (generate_cache_key "rerank" [query, doc_id]) value

/-- `set_answer`: key `md5("answer:" + query + ":" + collection + ":" +
filter_str)`. -/
def set_answer (st : Store) (query collection filter_str value : String) : Store :=
  setex st (generate_cache_key "answer" [query, collection, filter_str]) value

/-- Redis `KEYS` glob matching, with fuel for structural recursion: `*`
matches any run, `?` one character, anything else itself. -/
def globMatchAux (fuel : Nat) (p k : List Char) : Bool :=
  match fuel with
  | 0 => false
  | fuel + 1 =>
    match p, k with
    | [], [] => true
    | [], _ :: _ => false
    | c :: ps, [] => c = '*' && globMatchAux fuel ps []
    | c :: ps, kc :: ks =>
      if c = '*' then globMatchAux fuel ps (kc :: ks) || globMatchAux fuel (c :: ps) ks
      else (c = '?' || c = kc) && globMatchAux fuel ps ks

/-- Redis `KEYS` glob matching of a pattern against a key. -/
def globMatch (pattern key : String) : Bool :=
  globMatchAux (pattern.data.length + key.data.length + 1) pattern.data key.data

/-- The keys `redis.keys(pattern)` returns. -/
def redis_keys (st : Store) (pattern : String) : List String :=
  (st.filter (fun p => globMatch pattern p.1)).map (·.1)

/-- `invalidate_collection_cache`: delete every key matching
`f"*:{collection}:*"`. -/
def invalidate_collection_cache (st : Store) (collection : String) : Store :=
  let pattern := "*:" ++ collection ++ ":*"
  let ks := redis_keys st pattern
  st.filter (fun p => ¬ ks.contains p.1)

/-- Redis `GET`. -/
def redis_get (st : Store) (k : String) : Option String :=
  (st.find? (·.1 = k)).map (·.2)

end CacheService

/-! ## The admission decision as one ordered chain (specification side)

`admission_ordered` restates the backpressure decision as a single flat
chain of checks in the order the code actually applies them: scope,
concurrency, per-minute rate, per-hour rate, burst, queue depth, global
overload.  It is the specification-side definition for the amended C7
claim; the theorem below proves `should_accept_request` equal to it. -/

namespace RateLimiting

/-- The config `check_rate_limit` selects for a key. -/
def config_of (s : RLState) (k : String) : RateLimitConfig :=
  match quota_of s k with
  | some q =>
    if q.is_active then
      ⟨q.requests_per_minute, q.requests_per_hour, q.concurrent_requests,
       q.burst_limit, 60⟩
    else s.default_config
  | Option.none => s.default_config

/-- Whether the scope check denies the key (only active quotas carry a
scope list). -/
def scope_denied (s : RLState) (k req : String) : Bool :=
  match quota_of s k with
  | some q => q.is_active && !(q.scopes.contains req)
  | Option.none => false

/-- The flat ordered admission decision. -/
def admission_ordered (s : RLState) (max_queue_depth : Nat)
    (overload_threshold : ℚ) (api_key : String) (t : ℚ) : RLResult :=
  let s1 := cleanup_old_data s t
  let cfg := config_of s1 api_key
  let reqs := (s1.request_tracking api_key).dropWhile (· < t - cfg.window_size)
  let minute := reqs.filter (fun r => r > t - 60)
  let hour := reqs.filter (fun r => r > t - 3600)
  let burst := reqs.filter (fun r => r > t - 10)
  let capacity := (s1.api_key_quotas.map (fun p => p.2.concurrent_requests)).sum
  if scope_denied s1 api_key "query" then
    ⟨false, "Insufficient scope", Option.none⟩
  else if s1.conc api_key ≥ cfg.concurrent_requests then
    ⟨false, "Too many concurrent requests", some 1⟩
  else if minute.length ≥ cfg.requests_per_minute then
    ⟨false, "Rate limit exceeded (per minute)", some (60 - (t - minute.headD 0))⟩
  else if hour.length ≥ cfg.requests_per_hour then
    ⟨false, "Rate limit exceeded (per hour)", some (3600 - (t - hour.headD 0))⟩
  else if burst.length ≥ cfg.burst_limit then
    ⟨false, "Burst limit exceeded", some (10 - (t - burst.headD 0))⟩
  else if s1.queue_depths api_key ≥ max_queue_depth then
    ⟨false, "Queue depth limit exceeded", some 5⟩
  else if capacity > 0 then
    if (total_concurrent s1 : ℚ) / (capacity : ℚ) ≥ overload_threshold then
      ⟨false, "System overload", some 10⟩
    else ⟨true, "OK", Option.none⟩
  else ⟨true, "OK", Option.none⟩

end RateLimiting

/-! ## Concrete inputs for the claim theorems -/

/-- C1/C2 failing input: one chunk of `docA.md`. -/
def c1_doc : IndexManager.InDoc :=
  { content := "hello world"
  , metadata := []
  , source := "docA.md"
  , chunk_index := 0
  , file_name := "docA.md"
  , file_type := ".md"
  , doc_title := "Doc A"
  , section_title := "Intro"
  , page_num := 1 }

/-- C2 counterexample: a chunk ingested at one timestamp. -/
def c2_doc_a : PyDoc :=
  { page_content := "Hello, World!"
  , metadata := [("source", .str "a.md"), ("created_at", .str "2024-01-01T00:00:00")] }

/-- C2 counterexample: the metadata-equivalent chunk, identical except for
the volatile `created_at`. -/
def c2_doc_b : PyDoc :=
  { page_content := "Hello, World!"
  , metadata := [("source", .str "a.md"), ("created_at", .str "2024-01-02T00:00:00")] }

/-- C2 witness: raw text and dict order differ, normalization and sorted
items agree. -/
def c2_doc_c : PyDoc :=
  { page_content := "Hello,   WORLD!"
  , metadata := [("page", .int 1), ("source", .str "a.md")] }

/-- C2 witness partner. -/
def c2_doc_d : PyDoc :=
  { page_content := "hello world"
  , metadata := [("source", .str "a.md"), ("page", .int 1)] }

/-- C3: the document-level metadata dict of `docA.md`, as
`_extract_document_metadata` produces it. -/
def c3_doc_metadata : PyDict :=
  [("source", .str "docA.md"), ("file_name", .str "docA.md"),
   ("file_type", .str ".md"), ("doc_title", .str "Doc A"),
   ("total_length", .int 24), ("created_at", PyVal.none),
   ("author", PyVal.none), ("version", PyVal.none)]

/-- C3: the first section of `docA.md`. -/
def c3_sec0 : SectionAwareChunker.PySection :=
  { title := "Intro", content := "# Intro" ++ "\n" ++ "alpha."
  , level := 1, page_num := 1, section_num := 0 }

/-- C3: the second section of `docA.md`. -/
def c3_sec1 : SectionAwareChunker.PySection :=
  { title := "Body", content := "# Body" ++ "\n" ++ "beta."
  , level := 1, page_num := 1, section_num := 1 }

/-- C3: a splitter returning the section body whole (the langchain
splitters return the input unsplit when it fits in one chunk). -/
def c3_split : String → List String := fun s => [s]

/-- C3: the chunks of the two sections, concatenated as `chunk_document`
concatenates per-section chunks. -/
def c3_chunks : List PyDoc :=
  SectionAwareChunker.chunk_section c3_split c3_split c3_sec0 c3_doc_metadata
    ++ SectionAwareChunker.chunk_section c3_split c3_split c3_sec1 c3_doc_metadata

/-- C6 counterexample candidate appearing first in the input. -/
def c6_doc_b : RerankingService.SDoc := { source := "b", chunk_index := 0 }

/-- C6 counterexample candidate appearing second, with the smaller id. -/
def c6_doc_a : RerankingService.SDoc := { source := "a", chunk_index := 0 }

/-- C7: an active quota for client `k` covering the query scope. -/
def c7_quota_k : RateLimiting.APIKeyQuota :=
  { api_key := "k", requests_per_minute := 100, requests_per_hour := 1000
  , concurrent_requests := 10, burst_limit := 20, scopes := ["query"] }

/-- C7: a quota for client `k2` without the query scope and with zero
concurrency capacity. -/
def c7_quota_k2 : RateLimiting.APIKeyQuota :=
  { api_key := "k2", requests_per_minute := 100, requests_per_hour := 1000
  , concurrent_requests := 0, burst_limit := 20, scopes := ["ingest"] }

/-- C7 counterexample state: client `k` has 8 of 10 slots in flight (so the
global load ratio is exactly the 0.8 threshold) and a full queue of 100. -/
def c7_state : RateLimiting.RLState :=
  { default_config := {}
  , api_key_quotas := [("k", c7_quota_k), ("k2", c7_quota_k2)]
  , request_tracking := fun _ => []
  , concurrent_requests := [("k", 8)]
  , queue_depths := (fun k => if k = "k" then 100 else 0)
  , last_cleanup := 0 }

/-! ## Helper lemmas: the stable descending sort -/

theorem mem_insertDescBy {α : Type} (key : α → ℚ) (x a : α) (l : List α) :
    a ∈ insertDescBy key x l ↔ a = x ∨ a ∈ l := by
  induction l with
  | nil => simp [insertDescBy]
  | cons y ys ih =>
    simp only [insertDescBy]
    split
    · simp [List.mem_cons]
    · simp only [List.mem_cons, ih]
      tauto

theorem length_insertDescBy {α : Type} (key : α → ℚ) (x : α) (l : List α) :
    (insertDescBy key x l).length = l.length + 1 := by
  induction l with
  | nil => rfl
  | cons y ys ih =>
    simp only [insertDescBy]
    split
    · rfl
    · simp [ih]

theorem length_sortDescBy {α : Type} (key : α → ℚ) (l : List α) :
    (sortDescBy key l).length = l.length := by
  induction l with
  | nil => rfl
  | cons x xs ih => simp [sortDescBy, length_insertDescBy, ih]

theorem mem_sortDescBy {α : Type} (key : α → ℚ) (a : α) (l : List α) :
    a ∈ sortDescBy key l ↔ a ∈ l := by
  induction l with
  | nil => simp [sortDescBy]
  | cons x xs ih => simp [sortDescBy, mem_insertDescBy, ih]

theorem sorted_insertDescBy {α : Type} (key : α → ℚ) (x : α) (l : List α)
    (h : l.Pairwise (fun a b => key b ≤ key a)) :
    (insertDescBy key x l).Pairwise (fun a b => key b ≤ key a) := by
  induction l with
  | nil => simp [insertDescBy]
  | cons y ys ih =>
    rw [List.pairwise_cons] at h
    obtain ⟨hy, hys⟩ := h
    simp only [insertDescBy]
    split
    · rename_i hle
      rw [List.pairwise_cons]
      refine ⟨?_, List.pairwise_cons.mpr ⟨hy, hys⟩⟩
      intro z hz
      rcases List.mem_cons.mp hz with rfl | hz
      · exact hle
      · exact le_trans (hy z hz) hle
    · rename_i hgt
      push_neg at hgt
      rw [List.pairwise_cons]
      constructor
      · intro z hz
        rcases (mem_insertDescBy key x z ys).mp hz with rfl | hz
        · exact le_of_lt hgt
        · exact hy z hz
      · exact ih hys

theorem sorted_sortDescBy {α : Type} (key : α → ℚ) (l : List α) :
    (sortDescBy key l).Pairwise (fun a b => key b ≤ key a) := by
  induction l with
  | nil => simp [sortDescBy]
  | cons x xs ih => exact sorted_insertDescBy key x _ ih

theorem lex_insertDescBy {α : Type} (key : α → ℚ) (Q : α → α → Prop)
    (x : α) (l : List α)
    (h : l.Pairwise (fun a b => key b < key a ∨ (key a = key b ∧ Q a b)))
    (hx : ∀ y ∈ l, Q x y)
    (hs : l.Pairwise (fun a b => key b ≤ key a)) :
    (insertDescBy key x l).Pairwise
      (fun a b => key b < key a ∨ (key a = key b ∧ Q a b)) := by
  induction l with
  | nil => simp [insertDescBy]
  | cons y ys ih =>
    rw [List.pairwise_cons] at h hs
    obtain ⟨hy, hys⟩ := h
    obtain ⟨hsy, hsys⟩ := hs
    simp only [insertDescBy]
    split
    · rename_i hle
      rw [List.pairwise_cons]
      refine ⟨?_, List.pairwise_cons.mpr ⟨hy, hys⟩⟩
      intro z hz
      rcases List.mem_cons.mp hz with rfl | hz
      · rcases lt_or_eq_of_le hle with hlt | heq
        · exact Or.inl hlt
        · exact Or.inr ⟨heq.symm, hx z (by simp)⟩
      · have hzy : key z ≤ key y := hsy z hz
        have hzx : key z ≤ key x := le_trans hzy hle
        rcases lt_or_eq_of_le hzx with hlt | heq
        · exact Or.inl hlt
        · exact Or.inr ⟨heq.symm, hx z (List.mem_cons_of_mem y hz)⟩
    · rename_i hgt
      push_neg at hgt
      rw [List.pairwise_cons]
      constructor
      · intro z hz
        rcases (mem_insertDescBy key x z ys).mp hz with rfl | hz
        · exact Or.inl hgt
        · exact hy z hz
      · exact ih hys (fun z hz => hx z (List.mem_cons_of_mem y hz)) hsys

theorem lex_sortDescBy {α : Type} (key : α → ℚ) (Q : α → α → Prop)
    (l : List α) (h : l.Pairwise Q) :
    (sortDescBy key l).Pairwise
      (fun a b => key b < key a ∨ (key a = key b ∧ Q a b)) := by
  induction l with
  | nil => simp [sortDescBy]
  | cons x xs ih =>
    rw [List.pairwise_cons] at h
    obtain ⟨hx, hxs⟩ := h
    exact lex_insertDescBy key Q x _ (ih hxs)
      (fun y hy => hx y ((mem_sortDescBy key y xs).mp hy))
      (sorted_sortDescBy key xs)

/-! ## Helper lemmas: min–max normalization -/

namespace HybridSearchEngine

theorem le_foldl_max (l : List ℚ) (a : ℚ) :
    a ≤ l.foldl max a ∧ ∀ x ∈ l, x ≤ l.foldl max a := by
  induction l generalizing a with
  | nil => simp
  | cons b bs ih =>
    obtain ⟨h1, h2⟩ := ih (max a b)
    refine ⟨le_trans (le_max_left a b) h1, ?_⟩
    intro x hx
    rcases List.mem_cons.mp hx with rfl | hx
    · exact le_trans (le_max_right a x) h1
    · exact h2 x hx

theorem foldl_min_le (l : List ℚ) (a : ℚ) :
    l.foldl min a ≤ a ∧ ∀ x ∈ l, l.foldl min a ≤ x := by
  induction l generalizing a with
  | nil => simp
  | cons b bs ih =>
    obtain ⟨h1, h2⟩ := ih (min a b)
    refine ⟨le_trans h1 (min_le_left a b), ?_⟩
    intro x hx
    rcases List.mem_cons.mp hx with rfl | hx
    · exact le_trans h1 (min_le_right a x)
    · exact h2 x hx

theorem pyMin_le_pyMax (x : ℚ) (xs : List ℚ) : pyMin x xs ≤ pyMax x xs :=
  le_trans (foldl_min_le xs x).1 (le_foldl_max xs x).1

/-- Every normalized score lies in `[0, 1]`. -/
theorem normalizeScores_bounds (scores : List ℚ) :
    ∀ y ∈ normalizeScores scores, 0 ≤ y ∧ y ≤ 1 := by
  match scores with
  | [] => simp [normalizeScores]
  | x :: xs =>
    intro y hy
    simp only [normalizeScores, List.mem_map] at hy
    obtain ⟨s, hs, rfl⟩ := hy
    have hmax : s ≤ pyMax x xs := by
      rcases List.mem_cons.mp hs with rfl | hs
      · exact (le_foldl_max xs s).1
      · exact (le_foldl_max xs x).2 s hs
    have hmin : pyMin x xs ≤ s := by
      rcases List.mem_cons.mp hs with rfl | hs
      · exact (foldl_min_le xs s).1
      · exact (foldl_min_le xs x).2 s hs
    by_cases hdeg : pyMax x xs ≠ pyMin x xs
    · have hlt : pyMin x xs < pyMax x xs :=
        lt_of_le_of_ne (pyMin_le_pyMax x xs) (Ne.symm hdeg)
      have hpos : (0 : ℚ) < pyMax x xs - pyMin x xs := by linarith
      simp only [if_pos hdeg]
      constructor
      · apply div_nonneg (by linarith) (le_of_lt hpos)
      · rw [div_le_one hpos]
        linarith
    · push_neg at hdeg
      have hs' : s = pyMin x xs := le_antisymm (hdeg ▸ hmax) hmin
      simp only [if_neg (not_ne_iff.mpr hdeg)]
      rw [hs']
      norm_num

/-- A degenerate score list (max equal to min) normalizes to all zeros. -/
theorem normalizeScores_degenerate (x : ℚ) (xs : List ℚ)
    (h : pyMax x xs = pyMin x xs) :
    ∀ y ∈ normalizeScores (x :: xs), y = 0 := by
  intro y hy
  simp only [normalizeScores, List.mem_map] at hy
  obtain ⟨s, hs, rfl⟩ := hy
  have hmax : s ≤ pyMax x xs := by
    rcases List.mem_cons.mp hs with rfl | hs
    · exact (le_foldl_max xs s).1
    · exact (le_foldl_max xs x).2 s hs
  have hmin : pyMin x xs ≤ s := by
    rcases List.mem_cons.mp hs with rfl | hs
    · exact (foldl_min_le xs s).1
    · exact (foldl_min_le xs x).2 s hs
  have hs' : s = pyMin x xs := le_antisymm (h ▸ hmax) hmin
  simp only [if_neg (not_ne_iff.mpr h)]
  rw [hs']
  ring

theorem normalizeScores_length (l : List ℚ) :
    (normalizeScores l).length = l.length := by
  match l with
  | [] => rfl
  | x :: xs => simp [normalizeScores]

/-! ## Helper lemmas: the `doc_scores` dict of `hybrid_search` -/

theorem lastScore_append_single (al : List (String × ℚ)) (k0 k : String)
    (v0 : ℚ) :
    lastScore (al ++ [(k0, v0)]) k = if k0 = k then v0 else lastScore al k := by
  simp [lastScore, List.foldl_append]

theorem lastScore_not_mem (al : List (String × ℚ)) (k : String)
    (h : ∀ p ∈ al, p.1 ≠ k) : lastScore al k = 0 := by
  induction al with
  | nil => rfl
  | cons p ps ih =>
    have hp : p.1 ≠ k := h p (by simp)
    simp only [lastScore, List.foldl_cons, if_neg hp]
    exact ih (fun q hq => h q (List.mem_cons_of_mem p hq))

theorem mem_dsSetVector {α : Type} (d : List (String × DocScore α))
    (k : String) (v : DocScore α) (e : String × DocScore α)
    (he : e ∈ dsSetVector d k v) : e = (k, v) ∨ (e ∈ d ∧ e.1 ≠ k) := by
  unfold dsSetVector at he
  split at he
  · obtain ⟨p, hp, hfe⟩ := List.mem_map.mp he
    by_cases hk : p.1 = k
    · left; rw [if_pos hk] at hfe; exact hfe.symm
    · right; rw [if_neg hk] at hfe; exact ⟨hfe ▸ hp, hfe ▸ hk⟩
  · rename_i hany
    rcases List.mem_append.mp he with hd | hone
    · right
      refine ⟨hd, fun hek => ?_⟩
      exact hany (List.any_eq_true.mpr ⟨e, hd, by simpa using hek⟩)
    · left; simpa using hone

theorem any_dsSetVector_self {α : Type} (d : List (String × DocScore α))
    (k : String) (v : DocScore α) :
    (dsSetVector d k v).any (·.1 = k) = true := by
  unfold dsSetVector
  split
  · rename_i hany
    obtain ⟨p, hp, hpk⟩ := List.any_eq_true.mp hany
    refine List.any_eq_true.mpr ⟨(k, v), ?_, by simp⟩
    refine List.mem_map.mpr ⟨p, hp, ?_⟩
    rw [if_pos (by simpa using hpk)]
  · exact List.any_eq_true.mpr ⟨(k, v), by simp, by simp⟩

theorem any_dsSetVector_preserve {α : Type} (d : List (String × DocScore α))
    (k ko : String) (v : DocScore α) (h : d.any (·.1 = ko) = true) :
    (dsSetVector d k v).any (·.1 = ko) = true := by
  obtain ⟨p, hp, hpk⟩ := List.any_eq_true.mp h
  by_cases hk : p.1 = k
  · have : ko = k := by
      simp only [decide_eq_true_eq] at hpk
      rw [← hpk, hk]
    rw [this]
    exact any_dsSetVector_self d k v
  · unfold dsSetVector
    split
    · refine List.any_eq_true.mpr ⟨p, ?_, hpk⟩
      exact List.mem_map.mpr ⟨p, hp, by rw [if_neg hk]⟩
    · exact List.any_eq_true.mpr ⟨p, List.mem_append_left _ hp, hpk⟩

theorem mem_dsSetBm {α : Type} (d : List (String × DocScore α))
    (k : String) (doc : α) (b : ℚ) (e : String × DocScore α)
    (he : e ∈ dsSetBm d k doc b) :
    (∃ p ∈ d, p.1 = k ∧ e = (k, ⟨p.2.doc, p.2.vector_score, b⟩))
    ∨ (e ∈ d ∧ e.1 ≠ k)
    ∨ ((d.any (·.1 = k) = false) ∧ e = (k, ⟨doc, 0, b⟩)) := by
  unfold dsSetBm at he
  split at he
  · obtain ⟨p, hp, hfe⟩ := List.mem_map.mp he
    by_cases hk : p.1 = k
    · left
      rw [if_pos hk] at hfe
      exact ⟨p, hp, hk, hfe.symm⟩
    · right; left
      rw [if_neg hk] at hfe
      exact ⟨hfe ▸ hp, hfe ▸ hk⟩
  · rename_i hany
    rcases List.mem_append.mp he with hd | hone
    · right; left
      refine ⟨hd, fun hek => ?_⟩
      exact hany (List.any_eq_true.mpr ⟨e, hd, by simpa using hek⟩)
    · right; right
      exact ⟨Bool.eq_false_iff.mpr hany, by simpa using hone⟩

theorem any_dsSetBm_self {α : Type} (d : List (String × DocScore α))
    (k : String) (doc : α) (b : ℚ) :
    (dsSetBm d k doc b).any (·.1 = k) = true := by
  unfold dsSetBm
  split
  · rename_i hany
    obtain ⟨p, hp, hpk⟩ := List.any_eq_true.mp hany
    refine List.any_eq_true.mpr ⟨(k, ⟨p.2.doc, p.2.vector_score, b⟩), ?_, by simp⟩
    refine List.mem_map.mpr ⟨p, hp, ?_⟩
    rw [if_pos (by simpa using hpk)]
  · exact List.any_eq_true.mpr ⟨(k, ⟨doc, 0, b⟩), by simp, by simp⟩

theorem any_dsSetBm_preserve {α : Type} (d : List (String × DocScore α))
    (k ko : String) (doc : α) (b : ℚ) (h : d.any (·.1 = ko) = true) :
    (dsSetBm d k doc b).any (·.1 = ko) = true := by
  obtain ⟨p, hp, hpk⟩ := List.any_eq_true.mp h
  by_cases hk : p.1 = k
  · have : ko = k := by
      simp only [decide_eq_true_eq] at hpk
      rw [← hpk, hk]
    rw [this]
    exact any_dsSetBm_self d k doc b
  · unfold dsSetBm
    split
    · refine List.any_eq_true.mpr ⟨p, ?_, hpk⟩
      exact List.mem_map.mpr ⟨p, hp, by rw [if_neg hk]⟩
    · exact List.any_eq_true.mpr ⟨p, List.mem_append_left _ hp, hpk⟩

end HybridSearchEngine

namespace HybridSearchEngine

/-- Rebracketing of zipped score pairs. -/
theorem zip_map_left {α β γ : Type} (f : α → γ) (xs : List α) (ys : List β) :
    (xs.zip ys).map (fun p => (f p.1, p.2)) = (xs.map f).zip ys := by
  induction xs generalizing ys with
  | nil => simp
  | cons x xs ih =>
    cases ys with
    | nil => simp
    | cons y ys => simp [ih]

/-- Invariant of the first `hybrid_search` loop: after folding any batch of
(dense result, normalized score) pairs into the dict, every entry's key is
its document's id, its `vector_score` is the last normalized score recorded
for that key, its `bm25_score` is 0, and every processed key is present. -/
theorem phase1_inv {α : Type} (doc_id : α → String)
    (ps : List ((α × ℚ) × ℚ)) :
    ∀ (d : List (String × DocScore α)) (al : List (String × ℚ)),
    (∀ e ∈ d, e.1 = doc_id e.2.doc ∧ e.2.vector_score = lastScore al e.1
      ∧ e.2.bm25_score = 0) →
    (∀ p ∈ al, d.any (·.1 = p.1) = true) →
    (∀ e ∈ ps.foldl (fun d p => dsSetVector d (doc_id p.1.1) ⟨p.1.1, p.2, 0⟩) d,
        e.1 = doc_id e.2.doc
        ∧ e.2.vector_score
            = lastScore (al ++ ps.map (fun p => (doc_id p.1.1, p.2))) e.1
        ∧ e.2.bm25_score = 0)
    ∧ (∀ p ∈ al ++ ps.map (fun p => (doc_id p.1.1, p.2)),
        (ps.foldl (fun d p => dsSetVector d (doc_id p.1.1) ⟨p.1.1, p.2, 0⟩) d).any
          (·.1 = p.1) = true) := by
  induction ps with
  | nil =>
    intro d al hinv hcov
    simp only [List.foldl_nil, List.map_nil, List.append_nil]
    exact ⟨hinv, hcov⟩
  | cons p rest ih =>
    intro d al hinv hcov
    have hstep :
        (al ++ ((p :: rest).map (fun p => (doc_id p.1.1, p.2))))
          = (al ++ [(doc_id p.1.1, p.2)]) ++ rest.map (fun p => (doc_id p.1.1, p.2)) := by
      simp
    rw [hstep]
    simp only [List.foldl_cons]
    apply ih
    · intro e he
      rcases mem_dsSetVector d (doc_id p.1.1) ⟨p.1.1, p.2, 0⟩ e he with rfl | ⟨hed, hne⟩
      · refine ⟨rfl, ?_, rfl⟩
        rw [lastScore_append_single, if_pos rfl]
      · obtain ⟨h1, h2, h3⟩ := hinv e hed
        refine ⟨h1, ?_, h3⟩
        rw [lastScore_append_single, if_neg (fun hh => hne hh.symm), h2]
    · intro q hq
      rcases List.mem_append.mp hq with hq | hq
      · exact any_dsSetVector_preserve d _ q.1 _ (hcov q hq)
      · have : q = (doc_id p.1.1, p.2) := by simpa using hq
        rw [this]
        exact any_dsSetVector_self d _ _

/-- Invariant of the second `hybrid_search` loop: folding the lexical
results updates `bm25_score` to the last normalized lexical score per key,
keeps `vector_score` at its final dense value (0 for keys the dense side
never produced), and keeps every key present. -/
theorem phase2_inv {α : Type} (doc_id : α → String)
    (ps : List ((α × ℚ) × ℚ)) :
    ∀ (d : List (String × DocScore α)) (bl : List (String × ℚ))
      (vfin : String → ℚ),
    (∀ e ∈ d, e.1 = doc_id e.2.doc ∧ e.2.vector_score = vfin e.1
      ∧ e.2.bm25_score = lastScore bl e.1) →
    (∀ p ∈ bl, d.any (·.1 = p.1) = true) →
    (∀ k, d.any (·.1 = k) = false → vfin k = 0) →
    (∀ e ∈ ps.foldl (fun d p => dsSetBm d (doc_id p.1.1) p.1.1 p.2) d,
        e.1 = doc_id e.2.doc
        ∧ e.2.vector_score = vfin e.1
        ∧ e.2.bm25_score
            = lastScore (bl ++ ps.map (fun p => (doc_id p.1.1, p.2))) e.1) := by
  induction ps with
  | nil =>
    intro d bl vfin hinv hcov hzero
    simp only [List.foldl_nil, List.map_nil, List.append_nil]
    exact hinv
  | cons p rest ih =>
    intro d bl vfin hinv hcov hzero
    have hstep :
        (bl ++ ((p :: rest).map (fun p => (doc_id p.1.1, p.2))))
          = (bl ++ [(doc_id p.1.1, p.2)]) ++ rest.map (fun p => (doc_id p.1.1, p.2)) := by
      simp
    rw [hstep]
    simp only [List.foldl_cons]
    apply ih
    · intro e he
      rcases mem_dsSetBm d (doc_id p.1.1) p.1.1 p.2 e he with
        ⟨q, hq, hqk, rfl⟩ | ⟨hed, hne⟩ | ⟨hnone, rfl⟩
      · obtain ⟨h1, h2, _⟩ := hinv q hq
        refine ⟨by rw [← hqk, h1], ?_, ?_⟩
        · simpa [← hqk] using h2
        · rw [lastScore_append_single, if_pos rfl]
      · obtain ⟨h1, h2, h3⟩ := hinv e hed
        refine ⟨h1, h2, ?_⟩
        rw [lastScore_append_single, if_neg (fun hh => hne hh.symm), h3]
      · refine ⟨rfl, (hzero _ hnone).symm, ?_⟩
        rw [lastScore_append_single, if_pos rfl]
    · intro q hq
      rcases List.mem_append.mp hq with hq | hq
      · exact any_dsSetBm_preserve d _ q.1 _ _ (hcov q hq)
      · have : q = (doc_id p.1.1, p.2) := by simpa using hq
        rw [this]
        exact any_dsSetBm_self d _ _ _
    · intro k hk
      apply hzero
      by_contra hda
      have hda' : d.any (·.1 = k) = true := by
        cases hx : d.any (·.1 = k)
        · exact absurd hx hda
        · rfl
      rw [any_dsSetBm_preserve d _ k _ _ hda'] at hk
      exact Bool.true_eq_false.mp hk

end HybridSearchEngine

namespace HybridSearchEngine

/-- Rebracketing of the keyed normalized-score list. -/
theorem keyed_zip_eq {α : Type} (doc_id : α → String)
    (xs : List (α × ℚ)) (ys : List ℚ) :
    (xs.zip ys).map (fun p => (doc_id p.1.1, p.2))
      = (xs.map (fun r => doc_id r.1)).zip ys := by
  induction xs generalizing ys with
  | nil => simp
  | cons x xs ih =>
    cases ys with
    | nil => simp
    | cons y ys => simp [ih]

end HybridSearchEngine

open HybridSearchEngine in
/-- C4. For every query, the retriever min–max normalizes the dense and
lexical score lists to `[0,1]` independently (a degenerate list with
max = min maps every score to 0), fuses per chunk id as
`dense_weight·dense + lexical_weight·lexical` with an absent side counting
as 0 (the last normalized score of an id wins, matching the dict
overwrites), and returns at most `retrieve_k` candidates with fused scores
non-increasing in returned order.  Stated for the fusion path, i.e. when
the lexical search returned at least one hit; an empty lexical result
takes the dense-only fallback the spec describes separately. -/
theorem c4_retriever_fusion {α : Type} (doc_id : α → String)
    (vector_results bm25_results : List (α × ℚ)) (top_k : Nat)
    (semantic_weight keyword_weight : ℚ) (hbm : bm25_results ≠ []) :
    (∀ y ∈ normalizeScores (vector_results.map (·.2)), 0 ≤ y ∧ y ≤ 1)
    ∧ (∀ y ∈ normalizeScores (bm25_results.map (·.2)), 0 ≤ y ∧ y ≤ 1)
    ∧ (∀ (x : ℚ) (xs : List ℚ), pyMax x xs = pyMin x xs →
        ∀ y ∈ normalizeScores (x :: xs), y = 0)
    ∧ (hybrid_search doc_id vector_results bm25_results top_k
        semantic_weight keyword_weight).Pairwise (fun a b => b.2 ≤ a.2)
    ∧ (hybrid_search doc_id vector_results bm25_results top_k
        semantic_weight keyword_weight).length ≤ top_k
    ∧ (∀ p ∈ hybrid_search doc_id vector_results bm25_results top_k
          semantic_weight keyword_weight,
        p.2 = semantic_weight * sideNorm doc_id vector_results (doc_id p.1)
          + keyword_weight * sideNorm doc_id bm25_results (doc_id p.1)) := by
  rcases hb : bm25_results with _ | ⟨b0, bs⟩
  · exact absurd hb hbm
  subst hb
  refine ⟨normalizeScores_bounds _, normalizeScores_bounds _,
    fun x xs h => normalizeScores_degenerate x xs h, ?_, ?_, ?_⟩
  all_goals
    have hs : hybrid_search doc_id vector_results (b0 :: bs) top_k
        semantic_weight keyword_weight
        = (sortDescBy (fun x => x.2)
            ((((b0 :: bs).zip (normalizeScores ((b0 :: bs).map (·.2)))).foldl
                (fun d p => dsSetBm d (doc_id p.1.1) p.1.1 p.2)
                ((vector_results.zip
                    (normalizeScores (vector_results.map (·.2)))).foldl
                  (fun d p => dsSetVector d (doc_id p.1.1) ⟨p.1.1, p.2, 0⟩) [])).map
              (fun p => (p.2.doc,
                semantic_weight * p.2.vector_score
                  + keyword_weight * p.2.bm25_score)))).take top_k := rfl
  · rw [hs]
    exact (sorted_sortDescBy _ _).sublist (List.take_sublist _ _)
  · rw [hs]
    rw [List.length_take]
    exact min_le_left _ _
  · intro p hp
    rw [hs] at hp
    have hp' := List.take_subset _ _ hp
    rw [mem_sortDescBy] at hp'
    obtain ⟨e, he, hpe⟩ := List.mem_map.mp hp'
    have h1 := phase1_inv doc_id
      (vector_results.zip (normalizeScores (vector_results.map (·.2)))) []
      [] (by simp) (by simp)
    obtain ⟨hinv1, hcov1⟩ := h1
    have hzero : ∀ k,
        ((vector_results.zip (normalizeScores (vector_results.map (·.2)))).foldl
          (fun d p => dsSetVector d (doc_id p.1.1) ⟨p.1.1, p.2, 0⟩) []).any
            (·.1 = k) = false →
        lastScore ((vector_results.zip
          (normalizeScores (vector_results.map (·.2)))).map
            (fun p => (doc_id p.1.1, p.2))) k = 0 := by
      intro k hk
      apply lastScore_not_mem
      intro q hq hqk
      have hany := hcov1 q (by simpa using hq)
      rw [hqk, hk] at hany
      exact Bool.false_ne_true hany
    have h2 := phase2_inv doc_id
      ((b0 :: bs).zip (normalizeScores ((b0 :: bs).map (·.2)))) _ []
      (lastScore ((vector_results.zip
        (normalizeScores (vector_results.map (·.2)))).map
          (fun p => (doc_id p.1.1, p.2))))
      (by
        intro e' he'
        obtain ⟨k1, k2, k3⟩ := hinv1 e' he'
        exact ⟨k1, by simpa using k2, k3⟩)
      (by simp) hzero
    obtain ⟨hk, hv, hbm2⟩ := h2 e he
    rw [← hpe]
    have hid : doc_id e.2.doc = e.1 := hk.symm
    simp only [hid]
    rw [hv, hbm2]
    simp only [sideNorm, List.nil_append]
    rw [keyed_zip_eq doc_id, keyed_zip_eq doc_id]
/-! ## Helper lemmas: the query planner weights -/

namespace QueryPlanner

theorem base_weights_sum (qt : String) :
    (base_weights qt).1 + (base_weights qt).2 = 1 := by
  unfold base_weights
  split_ifs <;> norm_num

theorem length_adjusted_sum (bw : ℚ × ℚ) (n : Nat) :
    (length_adjusted bw n).1 + (length_adjusted bw n).2 = bw.1 + bw.2 := by
  unfold length_adjusted
  split_ifs <;> ring

theorem tech_adjusted_sum (bw : ℚ × ℚ) (q : String) :
    (tech_adjusted bw q).1 + (tech_adjusted bw q).2 = bw.1 + bw.2 := by
  unfold tech_adjusted
  split_ifs <;> ring

theorem calculate_weights_sum (qt q : String) :
    (calculate_weights qt q).1 + (calculate_weights qt q).2 = 1 := by
  unfold calculate_weights
  have hsum :
      (tech_adjusted (length_adjusted (base_weights qt) (pySplit q).length) q).1
      + (tech_adjusted (length_adjusted (base_weights qt) (pySplit q).length) q).2
      = 1 := by
    rw [tech_adjusted_sum, length_adjusted_sum, base_weights_sum]
  rw [div_add_div_same, hsum]
  norm_num

end QueryPlanner

/-! ## Helper lemma: pairing preserves pairwise order on the left -/

theorem pairwise_fst_zip {α β : Type} (R : α → α → Prop)
    (l1 : List α) (l2 : List β) (h : l1.Pairwise R) :
    (l1.zip l2).Pairwise (fun a b => R a.1 b.1) := by
  induction l1 generalizing l2 with
  | nil => simp
  | cons x xs ih =>
    cases l2 with
    | nil => simp
    | cons y ys =>
      rw [List.pairwise_cons] at h
      rw [List.zip_cons_cons, List.pairwise_cons]
      exact ⟨fun q hq => h.1 q.1 (List.of_mem_zip hq).1, ih ys h.2⟩

/-! ## C5 -/

/-- C5: the 3-token query `"what is X"` is classified `factual`; the
short-query adjustment moves the factual base weights (dense 0.6, lexical
0.4) to dense 0.5 / lexical 0.5 after renormalization, and the optimal
parameters carry `retrieve_k = 8` and `rerank_k = 5` (the code calls them
`top_k` and `rerank_top_k`, with `vector_weight` the dense and
`bm25_weight` the lexical weight). -/
theorem c5_planner_what_is_x :
    (QueryPlanner.analyze_query "what is X").query_type = "factual"
    ∧ (QueryPlanner.get_optimal_params "what is X").vector_weight = 1/2
    ∧ (QueryPlanner.get_optimal_params "what is X").bm25_weight = 1/2
    ∧ (QueryPlanner.get_optimal_params "what is X").top_k = 8
    ∧ (QueryPlanner.get_optimal_params "what is X").rerank_top_k = 5 := by
  with_unfolding_all decide

/-! ## C9 -/

/-- C9: for every query string, the plan's dense and lexical weights sum
to exactly 1 (the adjustments transfer weight between the sides and the
final division renormalizes, so the identity is exact over ℚ). -/
theorem c9_weights_sum_one (query : String) :
    (QueryPlanner.analyze_query query).bm25_weight
      + (QueryPlanner.analyze_query query).vector_weight = 1 := by
  unfold QueryPlanner.analyze_query
  exact QueryPlanner.calculate_weights_sum _ _

/-! ## C2 -/

/-- C2 counterexample: two chunks with identical text whose metadata
differ only in the volatile `created_at` field receive different content
hashes from both hash implementations, because `str(sorted(items))` keeps
every metadata pair — nothing excludes the volatile fields. -/
theorem c2_counterexample_volatile_hash :
    c2_doc_a.page_content = c2_doc_b.page_content
    ∧ DeduplicationService.compute_content_hash c2_doc_a
        ≠ DeduplicationService.compute_content_hash c2_doc_b
    ∧ SectionAwareChunker.chunker_compute_content_hash c2_doc_a
        ≠ SectionAwareChunker.chunker_compute_content_hash c2_doc_b := by
  decide

/-- C2 amended: `content_hash` is the SHA-256 of the normalized text
together with the sorted list of all metadata pairs, volatile fields
included; hence two chunks agreeing on normalized text and on the full
sorted metadata (rather than merely on the stable subset) have equal
content hashes under both implementations. -/
theorem c2_amended_hash_eq (d1 d2 : PyDoc)
    (ht : DeduplicationService.normalize_text d1.page_content
        = DeduplicationService.normalize_text d2.page_content)
    (hm : sortItems d1.metadata = sortItems d2.metadata) :
    DeduplicationService.compute_content_hash d1
      = DeduplicationService.compute_content_hash d2
    ∧ SectionAwareChunker.chunker_compute_content_hash d1
      = SectionAwareChunker.chunker_compute_content_hash d2 := by
  have hitems : pyItemsStr d1.metadata = pyItemsStr d2.metadata := by
    unfold pyItemsStr
    rw [hm]
  have ht' : SectionAwareChunker.chunker_normalize_text d1.page_content
      = SectionAwareChunker.chunker_normalize_text d2.page_content := ht
  constructor
  · unfold DeduplicationService.compute_content_hash
    rw [ht, hitems]
  · unfold SectionAwareChunker.chunker_compute_content_hash
    rw [ht', hitems]

/-- C2 amended witness: two chunks with differently spaced text and
permuted metadata dicts hash identically. -/
theorem c2_amended_witness :
    DeduplicationService.normalize_text c2_doc_c.page_content
      = DeduplicationService.normalize_text c2_doc_d.page_content
    ∧ sortItems c2_doc_c.metadata = sortItems c2_doc_d.metadata
    ∧ DeduplicationService.compute_content_hash c2_doc_c
      = DeduplicationService.compute_content_hash c2_doc_d :=
  ⟨by decide, by decide,
   (c2_amended_hash_eq c2_doc_c c2_doc_d (by decide) (by decide)).1⟩

/-! ## C3 -/

/-- C3: the identifier under which a chunk is indexed is
`f"{source}_{chunk_index}"` — it drops the collection and the section
index, and `chunk_index` restarts at 0 inside every section; two distinct
chunks of `docA.md` lying in different sections (section 0 and section 1)
therefore receive the same id `docA.md_0`, contradicting the claimed
four-field derivation. -/
theorem c3_chunk_id_collision :
    c3_chunks.length = 2
    ∧ (c3_chunks.map (fun c => dictGetD c.metadata "section_num" PyVal.none))
        = [PyVal.int 0, PyVal.int 1]
    ∧ c3_chunks.getD 0 ⟨"", []⟩ ≠ c3_chunks.getD 1 ⟨"", []⟩
    ∧ c3_chunks.map chroma_doc_id = ["docA.md_0", "docA.md_0"] := by
  decide

/-! ## C6 -/

/-- C6 counterexample: two candidates with equal fused scores and equal
rerank scores keep their input order `[b, a]` through `_apply_scores`
(Python's sort is stable and no further key is compared), although the
claimed chunk-id tie-break would put `a_0` before `b_0`. -/
theorem c6_counterexample_tiebreak :
    RerankingService.apply_scores
      [(c6_doc_b, (0 : ℚ)), (c6_doc_a, 0)] [0, 0] Option.none
      = [(c6_doc_b, 0), (c6_doc_a, 0)]
    ∧ strLtB (RerankingService.SDoc.docId c6_doc_a)
        (RerankingService.SDoc.docId c6_doc_b) = true
    ∧ c6_doc_a ≠ c6_doc_b := by
  with_unfolding_all decide
/-- C6 amended: each candidate's final score is
`0.6·rerank + 0.4·fused`; the candidates are reordered by this final score
descending and truncated to `rerank_k`; ties are resolved by keeping the
candidates' original input order (Python's stable sort) — deterministic,
but no fused-score or chunk-id key is consulted.  Candidates are indexed
by their input position to express the tie rule. -/
theorem c6_amended_rerank (n : Nat) (fused rerank_scores : List ℚ) (k : Nat)
    (hf : fused.length = n) (hr : rerank_scores.length = n) :
    (∀ p ∈ RerankingService.apply_scores ((List.range n).zip fused)
        rerank_scores (some k),
      ∃ i, i < n ∧ p.1 = i
        ∧ p.2 = 3/5 * rerank_scores.getD i 0 + 2/5 * fused.getD i 0)
    ∧ (RerankingService.apply_scores ((List.range n).zip fused)
        rerank_scores (some k)).Pairwise
        (fun a b => b.2 < a.2 ∨ (a.2 = b.2 ∧ a.1 < b.1))
    ∧ (RerankingService.apply_scores ((List.range n).zip fused)
        rerank_scores (some k)).length ≤ k := by
  have hlen : ¬ (rerank_scores.length ≠ ((List.range n).zip fused).length) := by
    simp [hr, hf]
  have happ : RerankingService.apply_scores ((List.range n).zip fused)
      rerank_scores (some k)
      = (sortDescBy (fun x => x.2)
          ((((List.range n).zip fused).zip rerank_scores).map
            (fun p => (p.1.1, 3/5 * p.2 + 2/5 * p.1.2)))).take k := by
    unfold RerankingService.apply_scores
    rw [if_neg hlen]
  refine ⟨?_, ?_, ?_⟩
  · intro p hp
    rw [happ] at hp
    have hp' := List.take_subset _ _ hp
    rw [mem_sortDescBy] at hp'
    obtain ⟨q, hq, hpe⟩ := List.mem_map.mp hp'
    rw [List.mem_iff_getElem] at hq
    obtain ⟨i, hi, hqe⟩ := hq
    have hi' : i < n := by
      simpa [hf, hr] using hi
    have hfi : i < fused.length := by rw [hf]; exact hi'
    have hri : i < rerank_scores.length := by rw [hr]; exact hi'
    have hqe' : q = ((i, fused[i]), rerank_scores[i]) := by
      rw [← hqe]
      rw [List.getElem_zip, List.getElem_zip, List.getElem_range]
    refine ⟨i, hi', ?_, ?_⟩
    · rw [← hpe, hqe']
    · rw [← hpe, hqe']
      have h1 : rerank_scores.getD i 0 = rerank_scores[i] := by
        rw [List.getD_eq_getElem?_getD, List.getElem?_eq_getElem hri]
        rfl
      have h2 : fused.getD i 0 = fused[i] := by
        rw [List.getD_eq_getElem?_getD, List.getElem?_eq_getElem hfi]
        rfl
      rw [h1, h2]
  · rw [happ]
    have hdocs : ((List.range n).zip fused).Pairwise (fun a b => a.1 < b.1) :=
      pairwise_fst_zip _ _ _ (List.pairwise_lt_range n)
    have hzip : (((List.range n).zip fused).zip rerank_scores).Pairwise
        (fun a b => a.1.1 < b.1.1) :=
      pairwise_fst_zip _ _ _ hdocs
    have hcomb : ((((List.range n).zip fused).zip rerank_scores).map
        (fun p => (p.1.1, 3/5 * p.2 + 2/5 * p.1.2))).Pairwise
        (fun a b => a.1 < b.1) :=
      hzip.map _ (fun a b h => h)
    exact (lex_sortDescBy (fun x => x.2) _ _ hcomb).sublist
      (List.take_sublist _ _)
  · rw [happ, List.length_take]
    exact min_le_left _ _

/-- C6 amended witness: the rule instantiated on two candidates with tied
fused scores and distinct rerank scores, truncated to one result. -/
theorem c6_amended_rerank_witness :
    (∀ p ∈ RerankingService.apply_scores ((List.range 2).zip [1/2, 1/2])
        [0, 1] (some 1),
      ∃ i, i < 2 ∧ p.1 = i
        ∧ p.2 = 3/5 * List.getD [(0 : ℚ), 1] i 0
            + 2/5 * List.getD [(1 : ℚ)/2, 1/2] i 0)
    ∧ (RerankingService.apply_scores ((List.range 2).zip [1/2, 1/2])
        [0, 1] (some 1)).Pairwise
        (fun a b => b.2 < a.2 ∨ (a.2 = b.2 ∧ a.1 < b.1))
    ∧ (RerankingService.apply_scores ((List.range 2).zip [1/2, 1/2])
        [0, 1] (some 1)).length ≤ 1 :=
  c6_amended_rerank 2 [1/2, 1/2] [0, 1] 1 rfl rfl
/-- C4 witness: the fusion contract instantiated on a concrete query with
two dense hits and two lexical hits, one chunk shared between the sides. -/
theorem c4_retriever_fusion_witness :
    (∀ y ∈ HybridSearchEngine.normalizeScores
        ([("a", (2 : ℚ)), ("b", 1)].map (·.2)), 0 ≤ y ∧ y ≤ 1)
    ∧ (∀ y ∈ HybridSearchEngine.normalizeScores
        ([("b", (3 : ℚ)), ("c", 1)].map (·.2)), 0 ≤ y ∧ y ≤ 1)
    ∧ (∀ (x : ℚ) (xs : List ℚ),
        HybridSearchEngine.pyMax x xs = HybridSearchEngine.pyMin x xs →
        ∀ y ∈ HybridSearchEngine.normalizeScores (x :: xs), y = 0)
    ∧ (HybridSearchEngine.hybrid_search (fun s => s) [("a", (2 : ℚ)), ("b", 1)]
        [("b", (3 : ℚ)), ("c", 1)] 2 (7/10) (3/10)).Pairwise
        (fun a b => b.2 ≤ a.2)
    ∧ (HybridSearchEngine.hybrid_search (fun s => s) [("a", (2 : ℚ)), ("b", 1)]
        [("b", (3 : ℚ)), ("c", 1)] 2 (7/10) (3/10)).length ≤ 2
    ∧ (∀ p ∈ HybridSearchEngine.hybrid_search (fun s => s)
          [("a", (2 : ℚ)), ("b", 1)] [("b", (3 : ℚ)), ("c", 1)] 2 (7/10) (3/10),
        p.2 = 7/10 * HybridSearchEngine.sideNorm (fun s => s)
            [("a", (2 : ℚ)), ("b", 1)] ((fun s => s) p.1)
          + 3/10 * HybridSearchEngine.sideNorm (fun s => s)
            [("b", (3 : ℚ)), ("c", 1)] ((fun s => s) p.1)) :=
  c4_retriever_fusion (fun s => s) [("a", 2), ("b", 1)] [("b", 3), ("c", 1)]
    2 (7/10) (3/10) (by simp)

/-! ## C1 -/

/-- C1: re-ingesting the identical one-chunk batch is not idempotent.  The
first upsert registers a hash computed over metadata that includes the
injected `created_at` timestamp and the stamped `content_hash` field; the
duplicate check on the second call hashes metadata without `content_hash`
and with a fresh timestamp, so nothing matches: the second call skips 0
documents, processes and re-upserts the whole batch, and issues a second
vector-store write. -/
theorem c1_reupsert_not_idempotent :
    (IndexManager.idempotent_upsert
      (IndexManager.idempotent_upsert IndexManager.IMState.empty
        "c1" [c1_doc] [[1]] "2024-01-01T00:00:00").2
      "c1" [c1_doc] [[1]] "2024-01-01T00:05:00").1.skipped_documents = 0
    ∧ (IndexManager.idempotent_upsert
      (IndexManager.idempotent_upsert IndexManager.IMState.empty
        "c1" [c1_doc] [[1]] "2024-01-01T00:00:00").2
      "c1" [c1_doc] [[1]] "2024-01-01T00:05:00").1.processed_documents = 1
    ∧ (IndexManager.idempotent_upsert
      (IndexManager.idempotent_upsert IndexManager.IMState.empty
        "c1" [c1_doc] [[1]] "2024-01-01T00:00:00").2
      "c1" [c1_doc] [[1]] "2024-01-01T00:05:00").1.upserted_documents = 1
    ∧ (IndexManager.idempotent_upsert
      (IndexManager.idempotent_upsert IndexManager.IMState.empty
        "c1" [c1_doc] [[1]] "2024-01-01T00:00:00").2
      "c1" [c1_doc] [[1]] "2024-01-01T00:05:00").2.writes.length = 2 := by
  decide

/-! ## C8 -/

/-- C8: cache keys are MD5 hex digests of `prefix:args`, which contain no
colon and carry no collection tag, while invalidation matches the glob
`*:{collection}:*` against those digests; the glob matches nothing, the
store survives invalidation unchanged, and all three families of entries
written under collection `c1` remain retrievable afterwards. -/
theorem c8_invalidation_evicts_nothing :
    CacheService.redis_keys
      (CacheService.set_answer (CacheService.set_rerank_score
        (CacheService.set_vector_hits [] "q" "c1" "v1") "q" "d1" "v2")
        "q" "c1" "fs" "v3") ("*:c1:*") = []
    ∧ CacheService.invalidate_collection_cache
      (CacheService.set_answer (CacheService.set_rerank_score
        (CacheService.set_vector_hits [] "q" "c1" "v1") "q" "d1" "v2")
        "q" "c1" "fs" "v3") "c1"
      = CacheService.set_answer (CacheService.set_rerank_score
        (CacheService.set_vector_hits [] "q" "c1" "v1") "q" "d1" "v2")
        "q" "c1" "fs" "v3"
    ∧ CacheService.redis_get
      (CacheService.invalidate_collection_cache
        (CacheService.set_answer (CacheService.set_rerank_score
          (CacheService.set_vector_hits [] "q" "c1" "v1") "q" "d1" "v2")
          "q" "c1" "fs" "v3") "c1")
      (CacheService.generate_cache_key "vector" ["q", "c1"]) = some "v1"
    ∧ CacheService.redis_get
      (CacheService.invalidate_collection_cache
        (CacheService.set_answer (CacheService.set_rerank_score
          (CacheService.set_vector_hits [] "q" "c1" "v1") "q" "d1" "v2")
          "q" "c1" "fs" "v3") "c1")
      (CacheService.generate_cache_key "rerank" ["q", "d1"]) = some "v2"
    ∧ CacheService.redis_get
      (CacheService.invalidate_collection_cache
        (CacheService.set_answer (CacheService.set_rerank_score
          (CacheService.set_vector_hits [] "q" "c1" "v1") "q" "d1" "v2")
          "q" "c1" "fs" "v3") "c1")
      (CacheService.generate_cache_key "answer" ["q", "c1", "fs"]) = some "v3" := by
  decide
/-! ## Helper lemmas: rate-limiter state effects -/

namespace RateLimiting

theorem cleanup_frame (s : RLState) (t : ℚ) :
    (cleanup_old_data s t).concurrent_requests = s.concurrent_requests
    ∧ (cleanup_old_data s t).queue_depths = s.queue_depths
    ∧ (cleanup_old_data s t).api_key_quotas = s.api_key_quotas
    ∧ (cleanup_old_data s t).default_config = s.default_config
    ∧ ∀ k, (cleanup_old_data s t).request_tracking k <:+ s.request_tracking k := by
  unfold cleanup_old_data
  split_ifs
  · exact ⟨rfl, rfl, rfl, rfl, fun k => List.suffix_refl _⟩
  · exact ⟨rfl, rfl, rfl, rfl, fun k => List.dropWhile_suffix _⟩

theorem check_rate_limits_frame (s : RLState) (key : String)
    (config : RateLimitConfig) (t : ℚ) :
    (check_rate_limits s key config t).2.concurrent_requests = s.concurrent_requests
    ∧ (check_rate_limits s key config t).2.queue_depths = s.queue_depths
    ∧ (check_rate_limits s key config t).2.api_key_quotas = s.api_key_quotas
    ∧ ∀ k, (check_rate_limits s key config t).2.request_tracking k
        <:+ s.request_tracking k := by
  unfold check_rate_limits
  have htr : ∀ k,
      (if k = key then (s.request_tracking key).dropWhile (· < t - config.window_size)
       else s.request_tracking k) <:+ s.request_tracking k := by
    intro k
    split_ifs with hk
    · rw [hk]
      exact List.dropWhile_suffix _
    · exact List.suffix_refl _
  dsimp only []
  split_ifs <;> exact ⟨rfl, rfl, rfl, htr⟩

theorem check_with_config_frame (s : RLState) (key : String)
    (config : RateLimitConfig) (t : ℚ) :
    (check_with_config s key config t).2.concurrent_requests = s.concurrent_requests
    ∧ (check_with_config s key config t).2.queue_depths = s.queue_depths
    ∧ (check_with_config s key config t).2.api_key_quotas = s.api_key_quotas
    ∧ ∀ k, (check_with_config s key config t).2.request_tracking k
        <:+ s.request_tracking k := by
  unfold check_with_config
  obtain ⟨h1, h2, h3, h4⟩ := check_rate_limits_frame s key config t
  dsimp only []
  split_ifs <;> first
    | exact ⟨rfl, rfl, rfl, fun k => List.suffix_refl _⟩
    | exact ⟨h1, h2, h3, h4⟩

theorem check_rate_limit_frame (s : RLState) (key request_type : String) (t : ℚ) :
    (check_rate_limit s key request_type t).2.concurrent_requests
      = s.concurrent_requests
    ∧ (check_rate_limit s key request_type t).2.queue_depths = s.queue_depths
    ∧ (check_rate_limit s key request_type t).2.api_key_quotas = s.api_key_quotas
    ∧ ∀ k, (check_rate_limit s key request_type t).2.request_tracking k
        <:+ s.request_tracking k := by
  unfold check_rate_limit
  obtain ⟨hc1, hc2, hc3, hc4, hc5⟩ := cleanup_frame s t
  cases hq : quota_of (cleanup_old_data s t) key with
  | none =>
    simp only [hq]
    obtain ⟨h1, h2, h3, h4⟩ := check_with_config_frame (cleanup_old_data s t) key
      (cleanup_old_data s t).default_config t
    exact ⟨h1.trans hc1, h2.trans hc2, h3.trans hc3, fun k => (h4 k).trans (hc5 k)⟩
  | some quota =>
    simp only [hq]
    split_ifs
    · obtain ⟨h1, h2, h3, h4⟩ := check_with_config_frame (cleanup_old_data s t) key
        ⟨quota.requests_per_minute, quota.requests_per_hour,
         quota.concurrent_requests, quota.burst_limit, 60⟩ t
      exact ⟨h1.trans hc1, h2.trans hc2, h3.trans hc3, fun k => (h4 k).trans (hc5 k)⟩
    · exact ⟨hc1, hc2, hc3, hc5⟩
    · obtain ⟨h1, h2, h3, h4⟩ := check_with_config_frame (cleanup_old_data s t) key
        (cleanup_old_data s t).default_config t
      exact ⟨h1.trans hc1, h2.trans hc2, h3.trans hc3, fun k => (h4 k).trans (hc5 k)⟩

theorem find_updateNat_self (l : List (String × Nat)) (k : String) (v : Nat) :
    (updateNat l k v).find? (·.1 = k) = some (k, v) := by
  unfold updateNat
  split_ifs with hany
  · induction l with
    | nil => simp at hany
    | cons p ps ih =>
      by_cases hp : p.1 = k
      · simp [List.find?, hp]
      · rw [List.map_cons, if_neg hp]
        rw [List.find?]
        rw [show (decide (p.1 = k)) = false by simp [hp]]
        apply ih
        rcases List.any_eq_true.mp hany with ⟨q, hq, hqk⟩
        rcases List.mem_cons.mp hq with rfl | hq
        · exact absurd (by simpa using hqk) hp
        · exact List.any_eq_true.mpr ⟨q, hq, hqk⟩
  · induction l with
    | nil => simp [List.find?]
    | cons p ps ih =>
      have hp : p.1 ≠ k := by
        intro hp
        exact hany (List.any_eq_true.mpr ⟨p, by simp, by simpa using hp⟩)
      rw [List.cons_append, List.find?]
      rw [show (decide (p.1 = k)) = false by simp [hp]]
      apply ih
      intro hany'
      rcases List.any_eq_true.mp hany' with ⟨q, hq, hqk⟩
      exact hany (List.any_eq_true.mpr ⟨q, List.mem_cons_of_mem p hq, hqk⟩)

theorem conc_updateNat_self (l : List (String × Nat)) (k : String) (v : Nat) :
    ((((updateNat l k v).find? (·.1 = k)).map (·.2)).getD 0) = v := by
  rw [find_updateNat_self]
  rfl

end RateLimiting

/-! ## C10 -/

/-- C10: a rate-limit check never consumes quota — whatever the outcome,
`check_rate_limit` leaves the in-flight counters and queue depths exactly
as they were and only ever discards old timestamps (every client's window
after the check is a suffix of its window before); the counters move only
through `record_request`, which appends the timestamp and increments the
client's in-flight count, and `release_request`, which decrements it
(saturating at zero). -/
theorem c10_check_rate_limit_frame (s : RateLimiting.RLState)
    (key request_type : String) (t : ℚ) :
    (RateLimiting.check_rate_limit s key request_type t).2.concurrent_requests
      = s.concurrent_requests
    ∧ (RateLimiting.check_rate_limit s key request_type t).2.queue_depths
      = s.queue_depths
    ∧ (∀ k, (RateLimiting.check_rate_limit s key request_type t).2.request_tracking k
        <:+ s.request_tracking k)
    ∧ (RateLimiting.record_request s key t).request_tracking key
      = s.request_tracking key ++ [t]
    ∧ (RateLimiting.record_request s key t).conc key = s.conc key + 1
    ∧ (RateLimiting.record_request s key t).queue_depths = s.queue_depths
    ∧ (RateLimiting.release_request s key).conc key = s.conc key - 1 := by
  obtain ⟨h1, h2, _, h3⟩ := RateLimiting.check_rate_limit_frame s key request_type t
  refine ⟨h1, h2, h3, ?_, ?_, rfl, ?_⟩
  · unfold RateLimiting.record_request
    simp
  · unfold RateLimiting.record_request RateLimiting.RLState.conc
    exact RateLimiting.conc_updateNat_self _ _ _
  · unfold RateLimiting.release_request
    split_ifs with hpos
    · unfold RateLimiting.RLState.conc
      exact RateLimiting.conc_updateNat_self _ _ _
    · omega
/-! ## C7 -/

/-- C7 counterexample: in a state where client `k` simultaneously has a
full queue (100 ≥ 100) and the global load ratio at the overload threshold
(8 in flight of capacity 10, ratio 0.8 ≥ 0.8), admission denies with
`queue_full` and a 5-second hint — the queue check runs before the
overload check, not after it as the claim orders them; and the scope
denial for client `k2` carries no retry hint at all (`retry_after` is
None). -/
theorem c7_counterexample_check_order :
    (RateLimiting.should_accept_request c7_state 100 (4/5) "k" 50).1
      = { allowed := false, reason := "Queue depth limit exceeded"
        , retry_after := some 5 }
    ∧ c7_state.queue_depths "k" ≥ 100
    ∧ ((RateLimiting.total_concurrent c7_state : ℚ)
        / (((c7_state.api_key_quotas.map
            (fun p => p.2.concurrent_requests)).sum : Nat) : ℚ) ≥ 4/5)
    ∧ (RateLimiting.check_rate_limit c7_state "k2" "query" 50).1
      = { allowed := false, reason := "Insufficient scope"
        , retry_after := Option.none } := by
  with_unfolding_all decide

/-- The outcome of `check_rate_limit` as a flat ordered chain of its five
checks (scope, concurrency, per-minute, per-hour, burst), read off the
cleaned-up state. -/
theorem check_rate_limit_eq (s : RateLimiting.RLState) (key rt : String)
    (t : ℚ) :
    (RateLimiting.check_rate_limit s key rt t).1 =
      (let s1 := RateLimiting.cleanup_old_data s t
       let cfg := RateLimiting.config_of s1 key
       let reqs := (s1.request_tracking key).dropWhile (· < t - cfg.window_size)
       let minute := reqs.filter (fun r => r > t - 60)
       let hour := reqs.filter (fun r => r > t - 3600)
       let burst := reqs.filter (fun r => r > t - 10)
       if RateLimiting.scope_denied s1 key rt then
         ⟨false, "Insufficient scope", Option.none⟩
       else if s1.conc key ≥ cfg.concurrent_requests then
         ⟨false, "Too many concurrent requests", some 1⟩
       else if minute.length ≥ cfg.requests_per_minute then
         ⟨false, "Rate limit exceeded (per minute)",
          some (60 - (t - minute.headD 0))⟩
       else if hour.length ≥ cfg.requests_per_hour then
         ⟨false, "Rate limit exceeded (per hour)",
          some (3600 - (t - hour.headD 0))⟩
       else if burst.length ≥ cfg.burst_limit then
         ⟨false, "Burst limit exceeded", some (10 - (t - burst.headD 0))⟩
       else ⟨true, "OK", Option.none⟩) := by
  unfold RateLimiting.check_rate_limit RateLimiting.check_with_config
    RateLimiting.check_rate_limits RateLimiting.check_burst_limit
    RateLimiting.config_of RateLimiting.scope_denied
  dsimp only []
  cases hq : RateLimiting.quota_of (RateLimiting.cleanup_old_data s t) key with
  | none =>
    simp only [hq]
    dsimp only []
    simp only [eq_self_iff_true, if_true, Bool.false_eq_true, if_false]
    split_ifs <;> first | rfl | simp_all
  | some quota =>
    simp only [hq]
    dsimp only []
    by_cases ha : quota.is_active
    · by_cases hsc : quota.scopes.contains rt
      · simp only [ha, hsc, if_true, not_true, if_false]
        split_ifs <;> first | rfl | simp_all
      · have hsc2 : rt ∉ quota.scopes := by simpa using hsc
        simp [ha, hsc, hsc2]
    · simp only [ha, Bool.false_eq_true, if_false, Bool.false_and]
      split_ifs <;> first | rfl | simp_all


/-- C7 amended: the admission checks are evaluated in the fixed order
scope, concurrency, per-minute rate, per-hour rate, burst, queue depth,
and only then global overload (in-flight / capacity ≥ threshold, guarded
by a positive capacity); every denial carries a machine-readable reason,
and the retry hints are 1 s for concurrency, 5 s for a full queue and 10 s
for overload, while the scope denial's `retry_after` is None.  Stated as:
the backpressure decision equals the flat ordered chain
`admission_ordered` for every state, client and time. -/
theorem c7_amended_check_order (s : RateLimiting.RLState)
    (max_queue_depth : Nat) (overload_threshold : ℚ) (key : String) (t : ℚ) :
    (RateLimiting.should_accept_request s max_queue_depth overload_threshold
      key t).1
    = RateLimiting.admission_ordered s max_queue_depth overload_threshold
        key t := by
  have hck := check_rate_limit_eq s key "query" t
  obtain ⟨hf1, hf2, hf3, _⟩ :=
    RateLimiting.check_rate_limit_frame s key "query" t
  obtain ⟨hc1, hc2, hc3, _, _⟩ := RateLimiting.cleanup_frame s t
  have hq4 : RateLimiting.total_concurrent
        (RateLimiting.check_rate_limit s key "query" t).2
      = RateLimiting.total_concurrent (RateLimiting.cleanup_old_data s t) := by
    unfold RateLimiting.total_concurrent
    rw [hf1, hc1]
  unfold RateLimiting.should_accept_request RateLimiting.admission_ordered
  dsimp only []
  dsimp only [] at hck
  rw [hck, hf2, hc2, hf3, hc3, hq4]
  split_ifs <;> first | rfl | simp_all
end RagSys
